import Mathlib

/-!
# Verification of the USCL lexer (`src/lexer.py`)

A shallow embedding of the USCL tokenizer.  The Python class `Lexer` carries
mutable state (`source`, `position`, `line`, `column`, `tokens`,
`indent_stack`); we model it as a structure `Lexer` threaded through pure
functions.  Each Python `while` loop becomes a fuel-indexed structural
recursion; every wrapper passes fuel `source.length + 1`, which is proved
sufficient (each loop iteration strictly advances `position`), so the fuel
never runs out and the embedding computes exactly what the Python loops do.

Modelling conventions:
* Characters: `Char`.  Python's `str.isdigit` / `str.isalpha` /
  `str.isalnum` are Unicode-aware, and this matters: `'²'.isdigit()` is
  `True` while `int('²')` raises `ValueError`, so the scanner can abort.
  The scanner is therefore embedded twice.  `tokenize` is the scanner
  restricted to ASCII character classes (`Char.isDigit`, `Char.isAlpha`,
  `Char.isAlphanum`), on which `int()`/`float()` cannot fail;
  `py_tokenize` is the scanner with the character classes modelled from
  the Unicode database on the full Latin-1 range (code points < 0x100,
  where `str.isdigit` also accepts the superscripts `¹ ² ³` that `int()`
  rejects) and with `int()`/`float()` fallible, so the `ValueError` abort
  path of `_read_number` is visible as an `Except.error` carrying the
  offending literal.  Characters ≥ U+0100 are outside the modelled
  character classes (the full Unicode tables are out of scope) and fall
  through to the operator reader.  The theorem `tokenize_agrees_on_ascii`
  proves the two embeddings agree on all-ASCII inputs, so the ASCII layer
  is the faithful restriction of the Latin-1 layer.  The two layers share
  every definition that involves no character class (whitespace/comment
  skipping, strings, operators, punctuation, `_add_token`).
* `self.source[i]` is `char_at`, a `getD` with an arbitrary default; every
  use in the code is guarded by a bounds check, as in Python.
* Python `int(s)` on a digit-class run is `py_int`: it succeeds exactly
  when every character is a decimal digit (Unicode Nd; in the Latin-1
  range these are `'0'`–`'9'`), and is `none` — modelling the raised
  `ValueError` — otherwise.  `parseInt` is the successful value.  Python
  `float(s)` on a string of shape `digits "." digits` is `py_float`, with
  the successful value `parseFloat`, the exact rational value of the
  decimal string (IEEE-754 rounding of the host float type is not
  modelled; the value-level claims speak of the numeric value of the
  decimal substring).
* `logger.warning` in `_read_operator` is modelled by appending the offending
  character and its position to a `warnings` field; `logger.debug` lines
  carry no data relevant to any claim and are dropped.
* Token values (Python `Any`: `int`, `float`, `str` or `None`) are the sum
  type `TokValue`.
-/

/-- `TokenType` of `lexer.py` (lines 15–77): the closed enumeration of
token kinds. -/
inductive TokenType where
  | INTEGER
  | FLOAT
  | STRING
  | SYMBOL
  | BOOLEAN
  | DEF
  | LET
  | IF
  | ELSE
  | LAMBDA
  | MATCH
  | QUANTUM
  | ASYNC
  | AWAIT
  | RETURN
  | IMPORT
  | MODULE
  | PLUS
  | MINUS
  | STAR
  | SLASH
  | PERCENT
  | POW
  | EQ
  | NEQ
  | LT
  | GT
  | LE
  | GE
  | AND
  | OR
  | NOT
  | ASSIGN
  | ARROW
  | PIPE
  | DOT
  | COLON
  | SEMICOLON
  | COMMA
  | LPAREN
  | RPAREN
  | LBRACKET
  | RBRACKET
  | LBRACE
  | RBRACE
  | IDENTIFIER
  | NEWLINE
  | INDENT
  | DEDENT
  | EOF
  | WHITESPACE
  | COMMENT
deriving DecidableEq, Repr

/-- The value slot of a token (`Any` in Python): an integer for INTEGER
tokens, a rational for FLOAT tokens, a character string for text-valued
tokens, `none` for the EOF token. -/
inductive TokValue where
  | none
  | int (n : Nat)
  | float (q : Rat)
  | str (s : List Char)
deriving DecidableEq, Repr

/-- `Token` dataclass of `lexer.py` (lines 80–89): kind, value, line, column. -/
structure Token where
  type : TokenType
  value : TokValue
  line : Nat
  column : Nat
deriving DecidableEq, Repr

/-- The mutable state of the Python `Lexer` object (`__init__`, lines
115–122), plus a `warnings` list modelling the `logger.warning` side
channel of `_read_operator`. -/
structure Lexer where
  source : List Char
  position : Nat
  line : Nat
  column : Nat
  tokens : List Token
  indent_stack : List Nat
  warnings : List (Char × Nat × Nat)
deriving DecidableEq, Repr

/-- `Lexer.__init__` (lines 115–122). -/
def initLexer (source : List Char) : Lexer :=
  { source := source, position := 0, line := 1, column := 1,
    tokens := [], indent_stack := [0], warnings := [] }

/-- `Lexer.KEYWORDS` (lines 95–113): the reserved-word table, an association
list keyed by the lexeme.  Note `true`/`false` map to `BOOLEAN`. -/
def KEYWORDS : List (List Char × TokenType) :=
  [("def".toList, TokenType.DEF), ("let".toList, TokenType.LET),
   ("if".toList, TokenType.IF), ("else".toList, TokenType.ELSE),
   ("lambda".toList, TokenType.LAMBDA), ("match".toList, TokenType.MATCH),
   ("quantum".toList, TokenType.QUANTUM), ("async".toList, TokenType.ASYNC),
   ("await".toList, TokenType.AWAIT), ("return".toList, TokenType.RETURN),
   ( "import".toList, TokenType.IMPORT), ("module".toList, TokenType.MODULE),
   ("true".toList, TokenType.BOOLEAN), ("false".toList, TokenType.BOOLEAN),
   ("and".toList, TokenType.AND), ("or".toList, TokenType.OR),
   ("not".toList, TokenType.NOT)]

/-- `self.source[i]`.  Python raises `IndexError` when `i` is out of range;
every read in the code is guarded by `position < len(source)`, so the
default character is never observable. -/
def char_at (s : Lexer) (i : Nat) : Char :=
  s.source.getD i '\x00'

/-- Python `int(cs)` for a string of decimal digits. -/
def parseInt (cs : List Char) : Nat :=
  cs.foldl (fun a c => 10 * a + (c.toNat - 48)) 0

/-- Python `float(cs)` for a string of shape `digits "." digits` (the only
shape `_read_number` ever passes): the exact rational value
`intpart.fracpart = (intpart ++ fracpart) / 10 ^ |fracpart|`. -/
def parseFloat (cs : List Char) : Rat :=
  let ip := cs.takeWhile (fun c => c ≠ '.')
  let fp := (cs.dropWhile (fun c => c ≠ '.')).drop 1
  mkRat (parseInt (ip ++ fp) : Int) (10 ^ fp.length)

/-- `Lexer._add_token` (lines 340–342): append a token carrying the line and
column the cursor holds at the moment of the call. -/
def add_token (s : Lexer) (ttype : TokenType) (value : TokValue) : Lexer :=
  { s with tokens :=
      s.tokens ++ [{ type := ttype, value := value, line := s.line, column := s.column }] }

/-- The inner `while` of the `#` branch of `_skip_whitespace_and_comments`
(lines 200–201): advance `position` (but not `column`) up to the next
newline or end of input. -/
def skip_comment_loop : Nat → Lexer → Lexer
  | 0, s => s
  | fuel + 1, s =>
    if s.position < s.source.length ∧ char_at s s.position ≠ '\n' then
      skip_comment_loop fuel { s with position := s.position + 1 }
    else s

/-- The outer `while` of `_skip_whitespace_and_comments` (lines 194–203):
spaces and tabs advance `position` and `column`; a `#` runs the comment
loop; any other character stops the scan. -/
def skip_ws_loop : Nat → Lexer → Lexer
  | 0, s => s
  | fuel + 1, s =>
    if s.position < s.source.length then
      let c := char_at s s.position
      if c = ' ' ∨ c = '\t' then
        skip_ws_loop fuel { s with position := s.position + 1, column := s.column + 1 }
      else if c = '#' then
        skip_ws_loop fuel (skip_comment_loop (s.source.length - s.position) s)
      else s
    else s

/-- `Lexer._skip_whitespace_and_comments` (lines 192–203). -/
def skip_whitespace_and_comments (s : Lexer) : Lexer :=
  skip_ws_loop (s.source.length + 1) s

/-- The two digit-run `while` loops of `_read_number` (lines 210–212 and
217–219): consume a maximal run of decimal digits, advancing `position`
and `column` together. -/
def digits_loop : Nat → Lexer → Lexer
  | 0, s => s
  | fuel + 1, s =>
    if s.position < s.source.length ∧ (char_at s s.position).isDigit then
      digits_loop fuel { s with position := s.position + 1, column := s.column + 1 }
    else s

/-- `Lexer._read_number` (lines 205–224).  (`start_col` is recorded in the
Python but never used.) -/
def read_number (s : Lexer) : Lexer :=
  let start_pos := s.position
  let s1 := digits_loop (s.source.length + 1) s
  if s1.position < s1.source.length ∧ char_at s1 s1.position = '.' then
    let s2 := { s1 with position := s1.position + 1, column := s1.column + 1 }
    let s3 := digits_loop (s2.source.length + 1) s2
    add_token s3 TokenType.FLOAT
      (TokValue.float (parseFloat ((s3.source.drop start_pos).take (s3.position - start_pos))))
  else
    add_token s1 TokenType.INTEGER
      (TokValue.int (parseInt ((s1.source.drop start_pos).take (s1.position - start_pos))))

/-- The continuation-character test of `_read_identifier` (line 232):
`c.isalnum() or c in '_?!'`. -/
def is_ident_char (c : Char) : Bool :=
  c.isAlphanum || c = '_' || c = '?' || c = '!'

/-- The `while` of `_read_identifier` (lines 231–234). -/
def ident_loop : Nat → Lexer → Lexer
  | 0, s => s
  | fuel + 1, s =>
    if s.position < s.source.length ∧ is_ident_char (char_at s s.position) then
      ident_loop fuel { s with position := s.position + 1, column := s.column + 1 }
    else s

/-- `Lexer._read_identifier` (lines 226–238): maximal munch, then the
reserved-word table decides the token kind, defaulting to IDENTIFIER.
(`start_col` is recorded in the Python but never used.) -/
def read_identifier (s : Lexer) : Lexer :=
  let start_pos := s.position
  let s1 := ident_loop (s.source.length + 1) s
  let value := (s1.source.drop start_pos).take (s1.position - start_pos)
  add_token s1 ((KEYWORDS.lookup value).getD TokenType.IDENTIFIER) (TokValue.str value)

/-- The escape-decoding branch of `_read_string` (lines 253–261):
`\n` → newline, `\t` → tab, `\\` → backslash, anything else stands for
itself. -/
def escape_char_value (c : Char) : Char :=
  if c = 'n' then '\n'
  else if c = 't' then '\t'
  else if c = '\\' then '\\'
  else c

/-- The `while` of `_read_string` (lines 248–266), carrying the accumulated
decoded value.  In the backslash branch the cursor advances once before the
escape character is read and once after, exactly as in the Python (so a
backslash that is the last character of the source pushes `position` one
past the end, and nothing is appended for it). -/
def string_loop (quote : Char) : Nat → Lexer → List Char → Lexer × List Char
  | 0, s, value => (s, value)
  | fuel + 1, s, value =>
    if s.position < s.source.length ∧ char_at s s.position ≠ quote then
      if char_at s s.position = '\\' then
        let s1 := { s with position := s.position + 1, column := s.column + 1 }
        let value1 :=
          if s1.position < s1.source.length then
            value ++ [escape_char_value (char_at s1 s1.position)]
          else value
        string_loop quote fuel
          { s1 with position := s1.position + 1, column := s1.column + 1 } value1
      else
        string_loop quote fuel
          { s with position := s.position + 1, column := s.column + 1 }
          (value ++ [char_at s s.position])
    else (s, value)

/-- `Lexer._read_string` (lines 240–272): skip the opening quote, run the
accumulation loop, skip the closing quote if the input has not run out, and
emit one STRING token.  (`start_col` is recorded in the Python but never
used.) -/
def read_string (s : Lexer) (quote : Char) : Lexer :=
  let s1 := { s with position := s.position + 1, column := s.column + 1 }
  let r := string_loop quote (s1.source.length + 1) s1 []
  let s2 := r.1
  let s3 :=
    if s2.position < s2.source.length then
      { s2 with position := s2.position + 1, column := s2.column + 1 }
    else s2
  add_token s3 TokenType.STRING (TokValue.str r.2)

/-- The 1-character tail of `_read_operator` (lines 316–338): emit the
matching one-character operator token, or record a warning for an
unrecognized character; either way advance the cursor by one. -/
def read_operator_one (s : Lexer) (char : Char) : Lexer :=
  let s1 :=
    if char = '+' then add_token s TokenType.PLUS (TokValue.str ['+'])
    else if char = '-' then add_token s TokenType.MINUS (TokValue.str ['-'])
    else if char = '*' then add_token s TokenType.STAR (TokValue.str ['*'])
    else if char = '/' then add_token s TokenType.SLASH (TokValue.str ['/'])
    else if char = '%' then add_token s TokenType.PERCENT (TokValue.str ['%'])
    else if char = '=' then add_token s TokenType.ASSIGN (TokValue.str ['='])
    else if char = '<' then add_token s TokenType.LT (TokValue.str ['<'])
    else if char = '>' then add_token s TokenType.GT (TokValue.str ['>'])
    else if char = '|' then add_token s TokenType.PIPE (TokValue.str ['|'])
    else { s with warnings := s.warnings ++ [(char, s.line, s.column)] }
  { s1 with position := s1.position + 1, column := s1.column + 1 }

/-- `Lexer._read_operator` (lines 274–338): when two characters remain, try
the two-character table `== != <= >= -> ** |>` first (emitting the token and
then advancing the cursor by two); otherwise fall through to the
one-character tail. -/
def read_operator (s : Lexer) : Lexer :=
  let char := char_at s s.position
  if s.position + 1 < s.source.length then
    let c2 := char_at s (s.position + 1)
    if char = '=' ∧ c2 = '=' then
      let s1 := add_token s TokenType.EQ (TokValue.str ['=', '='])
      { s1 with position := s1.position + 2, column := s1.column + 2 }
    else if char = '!' ∧ c2 = '=' then
      let s1 := add_token s TokenType.NEQ (TokValue.str ['!', '='])
      { s1 with position := s1.position + 2, column := s1.column + 2 }
    else if char = '<' ∧ c2 = '=' then
      let s1 := add_token s TokenType.LE (TokValue.str ['<', '='])
      { s1 with position := s1.position + 2, column := s1.column + 2 }
    else if char = '>' ∧ c2 = '=' then
      let s1 := add_token s TokenType.GE (TokValue.str ['>', '='])
      { s1 with position := s1.position + 2, column := s1.column + 2 }
    else if char = '-' ∧ c2 = '>' then
      let s1 := add_token s TokenType.ARROW (TokValue.str ['-', '>'])
      { s1 with position := s1.position + 2, column := s1.column + 2 }
    else if char = '*' ∧ c2 = '*' then
      let s1 := add_token s TokenType.POW (TokValue.str ['*', '*'])
      { s1 with position := s1.position + 2, column := s1.column + 2 }
    else if char = '|' ∧ c2 = '>' then
      let s1 := add_token s TokenType.PIPE (TokValue.str ['|', '>'])
      { s1 with position := s1.position + 2, column := s1.column + 2 }
    else read_operator_one s char
  else read_operator_one s char

/-- One of the ten identical single-character punctuation/delimiter branches
of `tokenize` (lines 145–184): `_add_token` first, then advance `position`
and `column` by one. -/
def punct1 (s : Lexer) (ttype : TokenType) (c : Char) : Lexer :=
  let s1 := add_token s ttype (TokValue.str [c])
  { s1 with position := s1.position + 1, column := s1.column + 1 }

/-- The dispatch body of the `tokenize` loop (lines 132–186), run when the
cursor is on a character after whitespace/comment skipping.  The newline
branch (lines 134–138) advances the cursor first and then appends a NEWLINE
token directly (not via `_add_token`) with line `self.line - 1` and the
reset column. -/
def scan_step (s : Lexer) : Lexer :=
  let char := char_at s s.position
  if char = '\n' then
    let sn := { s with position := s.position + 1, line := s.line + 1, column := 1 }
    { sn with tokens := sn.tokens ++
        [{ type := TokenType.NEWLINE, value := TokValue.str ['\n'],
           line := sn.line - 1, column := sn.column }] }
  else if char.isDigit then read_number s
  else if char.isAlpha ∨ char = '_' then read_identifier s
  else if char = '"' ∨ char = '\x27' then read_string s char
  else if char = ':' then punct1 s TokenType.COLON ':'
  else if char = ';' then punct1 s TokenType.SEMICOLON ';'
  else if char = ',' then punct1 s TokenType.COMMA ','
  else if char = '.' then punct1 s TokenType.DOT '.'
  else if char = '(' then punct1 s TokenType.LPAREN '('
  else if char = ')' then punct1 s TokenType.RPAREN ')'
  else if char = '[' then punct1 s TokenType.LBRACKET '['
  else if char = ']' then punct1 s TokenType.RBRACKET ']'
  else if char = '\x7b' then punct1 s TokenType.LBRACE '\x7b'
  else if char = '\x7d' then punct1 s TokenType.RBRACE '\x7d'
  else read_operator s

/-- The `while` of `tokenize` (lines 127–186): skip whitespace and comments,
stop at end of input, otherwise dispatch on the current character and
continue. -/
def main_loop : Nat → Lexer → Lexer
  | 0, s => s
  | fuel + 1, s =>
    if s.position < s.source.length then
      let s1 := skip_whitespace_and_comments s
      if s1.position < s1.source.length then
        main_loop fuel (scan_step s1)
      else s1
    else s

/-- The final state of `Lexer(source).tokenize()`: run the scan loop, then
append the EOF token (line 188). -/
def tokenize_final (source : List Char) : Lexer :=
  add_token (main_loop (source.length + 1) (initLexer source)) TokenType.EOF TokValue.none

/-- `Lexer.tokenize` (lines 124–190): the returned token list. -/
def tokenize (source : List Char) : List Token :=
  (tokenize_final source).tokens

/-- Follows the spec's description of the string reader: the decoded text
accumulated from the characters following the opening quote, stopping at the
first (unescaped) occurrence of the same quote character or at end of input;
`\n` → newline, `\t` → tab, `\\` → backslash, any other escaped character
stands for itself; a trailing lone backslash contributes nothing.  The
refinement theorem for C9 proves `read_string` emits exactly this value. -/
def string_value_spec (quote : Char) : List Char → List Char
  | [] => []
  | c :: cs =>
    if c = quote then []
    else if c = '\\' then
      match cs with
      | [] => []
      | e :: cs2 => escape_char_value e :: string_value_spec quote cs2
    else c :: string_value_spec quote cs

/-- Decidable equality for `Except`, used to evaluate the Latin-1 scanner
on concrete inputs. -/
instance instDecEqExcept {α β : Type} [DecidableEq α] [DecidableEq β] :
    DecidableEq (Except α β) := fun x y =>
  match x, y with
  | Except.error a, Except.error b =>
    if h : a = b then isTrue (by rw [h]) else isFalse (fun he => h (Except.error.inj he))
  | Except.ok a, Except.ok b =>
    if h : a = b then isTrue (by rw [h]) else isFalse (fun he => h (Except.ok.inj he))
  | Except.error _, Except.ok _ => isFalse (fun he => Except.noConfusion he)
  | Except.ok _, Except.error _ => isFalse (fun he => Except.noConfusion he)

/-- Python `str.isdigit`, modelled on the Latin-1 range (code points
< 0x100): the decimal digits `'0'`–`'9'` plus the superscripts `¹` (U+00B9),
`²` (U+00B2) and `³` (U+00B3), which have Unicode `Numeric_Type=Digit` but
are *not* decimal digits, so `int()` rejects them.  Characters ≥ U+0100 are
outside the modelled range and classified `false`. -/
def py_isdigit (c : Char) : Bool :=
  c.isDigit || c = '¹' || c = '²' || c = '³'

/-- Python `str.isalpha`, modelled on the Latin-1 range: the ASCII letters
plus `ª µ º` and the accented-letter ranges `À`–`Ö`, `Ø`–`ö`, `ø`–`ÿ`
(excluding `×` and `÷`).  Characters ≥ U+0100 are outside the modelled
range and classified `false`. -/
def py_isalpha (c : Char) : Bool :=
  c.isAlpha || c = 'ª' || c = 'µ' || c = 'º' ||
    ('À' ≤ c && c ≤ 'Ö') || ('Ø' ≤ c && c ≤ 'ö') || ('ø' ≤ c && c ≤ 'ÿ')

/-- Python `str.isalnum` (alphabetic, decimal, digit or numeric), modelled
on the Latin-1 range: `py_isalpha`, `py_isdigit`, plus the vulgar fractions
`¼ ½ ¾` (U+00BC–U+00BE, `Numeric_Type=Numeric`). -/
def py_isalnum (c : Char) : Bool :=
  py_isalpha c || py_isdigit c || c = '¼' || c = '½' || c = '¾'

/-- The continuation-character test of `_read_identifier` (line 232) with
the Latin-1 `isalnum`: `c.isalnum() or c in '_?!'`. -/
def py_is_ident_char (c : Char) : Bool :=
  py_isalnum c || c = '_' || c = '?' || c = '!'

/-- Python `int(cs)` for the digit-class runs `_read_number` passes to it
(line 223): it succeeds exactly when the run is nonempty and every
character is a decimal digit (Unicode Nd; on the Latin-1 range these are
`'0'`–`'9'`), returning the decimal value; on a run containing a
digit-typed non-decimal character such as `'²'` it raises `ValueError`,
modelled as `none`. -/
def py_int (cs : List Char) : Option Nat :=
  if cs ≠ [] ∧ cs.all Char.isDigit then some (parseInt cs) else none

/-- Python `float(cs)` for the strings of shape `digits "." digits` that
`_read_number` passes to it (line 220): it succeeds exactly when the
integer part is a nonempty run of decimal digits and the fractional part
is all decimal digits, and raises `ValueError` (modelled as `none`)
otherwise.  The successful value is `parseFloat`, the exact rational value
of the decimal string (host IEEE-754 rounding is not modelled). -/
def py_float (cs : List Char) : Option Rat :=
  let ip := cs.takeWhile (fun c => c ≠ '.')
  let fp := (cs.dropWhile (fun c => c ≠ '.')).drop 1
  if ip ≠ [] ∧ ip.all Char.isDigit ∧ fp.all Char.isDigit then some (parseFloat cs) else none

/-- The digit-run loops of `_read_number` (lines 210–212 and 217–219) with
the Latin-1 `isdigit`. -/
def py_digits_loop : Nat → Lexer → Lexer
  | 0, s => s
  | fuel + 1, s =>
    if s.position < s.source.length ∧ py_isdigit (char_at s s.position) then
      py_digits_loop fuel { s with position := s.position + 1, column := s.column + 1 }
    else s

/-- The `while` of `_read_identifier` (lines 231–234) with the Latin-1
`isalnum`. -/
def py_ident_loop : Nat → Lexer → Lexer
  | 0, s => s
  | fuel + 1, s =>
    if s.position < s.source.length ∧ py_is_ident_char (char_at s s.position) then
      py_ident_loop fuel { s with position := s.position + 1, column := s.column + 1 }
    else s

/-- `Lexer._read_number` (lines 205–224) with the Latin-1 `isdigit` and
fallible `int()`/`float()`: an `Except.error` carries the literal substring
whose parse raised `ValueError`, which aborts the whole tokenization. -/
def py_read_number (s : Lexer) : Except (List Char) Lexer :=
  let start_pos := s.position
  let s1 := py_digits_loop (s.source.length + 1) s
  if s1.position < s1.source.length ∧ char_at s1 s1.position = '.' then
    let s2 := { s1 with position := s1.position + 1, column := s1.column + 1 }
    let s3 := py_digits_loop (s2.source.length + 1) s2
    let lit := (s3.source.drop start_pos).take (s3.position - start_pos)
    match py_float lit with
    | some v => Except.ok (add_token s3 TokenType.FLOAT (TokValue.float v))
    | none => Except.error lit
  else
    let lit := (s1.source.drop start_pos).take (s1.position - start_pos)
    match py_int lit with
    | some v => Except.ok (add_token s1 TokenType.INTEGER (TokValue.int v))
    | none => Except.error lit

/-- `Lexer._read_identifier` (lines 226–238) with the Latin-1 `isalnum`
(this helper cannot raise). -/
def py_read_identifier (s : Lexer) : Lexer :=
  let start_pos := s.position
  let s1 := py_ident_loop (s.source.length + 1) s
  let value := (s1.source.drop start_pos).take (s1.position - start_pos)
  add_token s1 ((KEYWORDS.lookup value).getD TokenType.IDENTIFIER) (TokValue.str value)

/-- The dispatch body of the `tokenize` loop (lines 132–186) with the
Latin-1 character classes: a superscript digit such as `'²'` is dispatched
to the number reader (as in Python, where `'²'.isdigit()` is `True`),
whose `int()` call then raises.  All branches other than the number reader
are the shared (character-class-free) helpers. -/
def py_scan_step (s : Lexer) : Except (List Char) Lexer :=
  let char := char_at s s.position
  if char = '\n' then
    let sn := { s with position := s.position + 1, line := s.line + 1, column := 1 }
    Except.ok { sn with tokens := sn.tokens ++
      [{ type := TokenType.NEWLINE, value := TokValue.str ['\n'],
         line := sn.line - 1, column := sn.column }] }
  else if py_isdigit char then py_read_number s
  else if py_isalpha char ∨ char = '_' then Except.ok (py_read_identifier s)
  else if char = '"' ∨ char = '\x27' then Except.ok (read_string s char)
  else if char = ':' then Except.ok (punct1 s TokenType.COLON ':')
  else if char = ';' then Except.ok (punct1 s TokenType.SEMICOLON ';')
  else if char = ',' then Except.ok (punct1 s TokenType.COMMA ',')
  else if char = '.' then Except.ok (punct1 s TokenType.DOT '.')
  else if char = '(' then Except.ok (punct1 s TokenType.LPAREN '(')
  else if char = ')' then Except.ok (punct1 s TokenType.RPAREN ')')
  else if char = '[' then Except.ok (punct1 s TokenType.LBRACKET '[')
  else if char = ']' then Except.ok (punct1 s TokenType.RBRACKET ']')
  else if char = '\x7b' then Except.ok (punct1 s TokenType.LBRACE '\x7b')
  else if char = '\x7d' then Except.ok (punct1 s TokenType.RBRACE '\x7d')
  else Except.ok (read_operator s)

/-- The `while` of `tokenize` (lines 127–186) with the Latin-1 character
classes: a `ValueError` raised inside `_read_number` propagates out of the
loop immediately, as an uncaught Python exception does. -/
def py_main_loop : Nat → Lexer → Except (List Char) Lexer
  | 0, s => Except.ok s
  | fuel + 1, s =>
    if s.position < s.source.length then
      let s1 := skip_whitespace_and_comments s
      if s1.position < s1.source.length then
        match py_scan_step s1 with
        | Except.ok s2 => py_main_loop fuel s2
        | Except.error e => Except.error e
      else Except.ok s1
    else Except.ok s

/-- `Lexer.tokenize` (lines 124–190) with the Latin-1 character classes:
either the returned token list (the EOF token appended at line 188), or
the literal whose `int()`/`float()` parse raised `ValueError`. -/
def py_tokenize (source : List Char) : Except (List Char) (List Token) :=
  match py_main_loop (source.length + 1) (initLexer source) with
  | Except.ok s => Except.ok (add_token s TokenType.EOF TokValue.none).tokens
  | Except.error e => Except.error e

/-! ## Shape lemmas for the scanning loops

Each loop only ever updates `position` and `column` (and, for the string
loop, the accumulated value); these existential characterizations record
exactly which counters each code path advances. -/

lemma skip_comment_loop_shape (f : Nat) (s : Lexer) :
    ∃ k, skip_comment_loop f s = { s with position := s.position + k } := by
  induction f generalizing s with
  | zero => exact ⟨0, rfl⟩
  | succ f ih =>
    by_cases h : s.position < s.source.length ∧ char_at s s.position ≠ '\n'
    · obtain ⟨k, hk⟩ := ih { s with position := s.position + 1 }
      refine ⟨1 + k, ?_⟩
      rw [skip_comment_loop, if_pos h, hk]
      have : s.position + 1 + k = s.position + (1 + k) := by omega
      rw [this]
    · exact ⟨0, by rw [skip_comment_loop, if_neg h]; rfl⟩

lemma digits_loop_shape (f : Nat) (s : Lexer) :
    ∃ k, digits_loop f s = { s with position := s.position + k, column := s.column + k } := by
  induction f generalizing s with
  | zero => exact ⟨0, rfl⟩
  | succ f ih =>
    by_cases h : s.position < s.source.length ∧ (char_at s s.position).isDigit
    · obtain ⟨k, hk⟩ := ih { s with position := s.position + 1, column := s.column + 1 }
      refine ⟨1 + k, ?_⟩
      rw [digits_loop, if_pos h, hk]
      have h1 : s.position + 1 + k = s.position + (1 + k) := by omega
      have h2 : s.column + 1 + k = s.column + (1 + k) := by omega
      rw [h1, h2]
    · exact ⟨0, by rw [digits_loop, if_neg h]; rfl⟩

lemma ident_loop_shape (f : Nat) (s : Lexer) :
    ∃ k, ident_loop f s = { s with position := s.position + k, column := s.column + k } := by
  induction f generalizing s with
  | zero => exact ⟨0, rfl⟩
  | succ f ih =>
    by_cases h : s.position < s.source.length ∧ is_ident_char (char_at s s.position)
    · obtain ⟨k, hk⟩ := ih { s with position := s.position + 1, column := s.column + 1 }
      refine ⟨1 + k, ?_⟩
      rw [ident_loop, if_pos h, hk]
      have h1 : s.position + 1 + k = s.position + (1 + k) := by omega
      have h2 : s.column + 1 + k = s.column + (1 + k) := by omega
      rw [h1, h2]
    · exact ⟨0, by rw [ident_loop, if_neg h]; rfl⟩

lemma skip_ws_loop_shape (f : Nat) (s : Lexer) :
    ∃ k j, j ≤ k ∧ skip_ws_loop f s = { s with position := s.position + k, column := s.column + j } := by
  induction f generalizing s with
  | zero => exact ⟨0, 0, Nat.le_refl 0, rfl⟩
  | succ f ih =>
    by_cases h : s.position < s.source.length
    · by_cases hc : char_at s s.position = ' ' ∨ char_at s s.position = '\t'
      · obtain ⟨k, j, hjk, hk⟩ := ih { s with position := s.position + 1, column := s.column + 1 }
        refine ⟨1 + k, 1 + j, by omega, ?_⟩
        rw [skip_ws_loop, if_pos h, if_pos hc, hk]
        have h1 : s.position + 1 + k = s.position + (1 + k) := by omega
        have h2 : s.column + 1 + j = s.column + (1 + j) := by omega
        rw [h1, h2]
      · by_cases hh : char_at s s.position = '#'
        · obtain ⟨m, hm⟩ := skip_comment_loop_shape (s.source.length - s.position) s
          obtain ⟨k, j, hjk, hk⟩ := ih { s with position := s.position + m }
          refine ⟨m + k, j, by omega, ?_⟩
          rw [skip_ws_loop, if_pos h, if_neg hc, if_pos hh, hm, hk]
          have h1 : s.position + m + k = s.position + (m + k) := by omega
          rw [h1]
        · exact ⟨0, 0, Nat.le_refl 0, by rw [skip_ws_loop, if_pos h, if_neg hc, if_neg hh]; rfl⟩
    · exact ⟨0, 0, Nat.le_refl 0, by rw [skip_ws_loop, if_neg h]; rfl⟩

lemma string_loop_shape (quote : Char) (f : Nat) (s : Lexer) (v : List Char) :
    ∃ k w, string_loop quote f s v =
      ({ s with position := s.position + k, column := s.column + k }, v ++ w) := by
  induction f generalizing s v with
  | zero => exact ⟨0, [], by simp [string_loop]⟩
  | succ f ih =>
    by_cases h : s.position < s.source.length ∧ char_at s s.position ≠ quote
    · by_cases hb : char_at s s.position = '\\'
      · by_cases hin : s.position + 1 < s.source.length
        · obtain ⟨k, w, hk⟩ :=
            ih { s with position := s.position + 1 + 1, column := s.column + 1 + 1 }
              (v ++ [escape_char_value (char_at s (s.position + 1))])
          refine ⟨2 + k, escape_char_value (char_at s (s.position + 1)) :: w, ?_⟩
          simp only [string_loop, h.1, h.2, hb, hin, if_true, ite_true, and_self,
            ne_eq, not_false_iff]
          have hchar : char_at { s with position := s.position + 1, column := s.column + 1 }
              (s.position + 1) = char_at s (s.position + 1) := rfl
          rw [hchar]
          dsimp only at hk
          rw [hk]
          have h1 : s.position + 1 + 1 + k = s.position + (2 + k) := by omega
          have h2 : s.column + 1 + 1 + k = s.column + (2 + k) := by omega
          rw [h1, h2, List.append_assoc]
          rw [if_pos (show True ∧ ¬('\\' = quote) from ⟨trivial, by rw [← hb]; exact h.2⟩)]
          rfl
        · obtain ⟨k, w, hk⟩ :=
            ih { s with position := s.position + 1 + 1, column := s.column + 1 + 1 } v
          refine ⟨2 + k, w, ?_⟩
          simp only [string_loop, h.1, h.2, hb, hin, if_true, ite_true, and_self,
            ne_eq, not_false_iff, if_false, ite_false]
          dsimp only at hk
          rw [hk]
          have h1 : s.position + 1 + 1 + k = s.position + (2 + k) := by omega
          have h2 : s.column + 1 + 1 + k = s.column + (2 + k) := by omega
          rw [h1, h2]
          rw [if_pos (show True ∧ ¬('\\' = quote) from ⟨trivial, by rw [← hb]; exact h.2⟩)]
      · obtain ⟨k, w, hk⟩ :=
          ih { s with position := s.position + 1, column := s.column + 1 }
            (v ++ [char_at s s.position])
        refine ⟨1 + k, char_at s s.position :: w, ?_⟩
        simp only [string_loop, h.1, h.2, hb, if_true, ite_true, and_self,
          ne_eq, not_false_iff, if_false, ite_false]
        dsimp only at hk
        rw [hk]
        have h1 : s.position + 1 + k = s.position + (1 + k) := by omega
        have h2 : s.column + 1 + k = s.column + (1 + k) := by omega
        rw [h1, h2, List.append_assoc]
        rfl
    · exact ⟨0, [], by rw [string_loop, if_neg h]; simp⟩

/-! ## List and parsing helper lemmas -/

lemma drop_cons_at (s : Lexer) (i : Nat) (h : i < s.source.length) :
    s.source.drop i = char_at s i :: s.source.drop (i + 1) := by
  rw [List.drop_eq_getElem_cons h]
  congr 1
  rw [char_at, List.getD_eq_getElem?_getD, List.getElem?_eq_getElem h]
  rfl

lemma char_at_eq_head (s : Lexer) (h : s.position < s.source.length) :
    s.source.drop s.position = char_at s s.position :: s.source.drop (s.position + 1) :=
  drop_cons_at s s.position h

lemma take_takeWhile (p : Char → Bool) (l : List Char) :
    l.take (l.takeWhile p).length = l.takeWhile p := by
  induction l with
  | nil => rfl
  | cons c l ih =>
    rw [List.takeWhile_cons]
    by_cases h : p c
    · simp [h, ih]
    · simp [h]

lemma take_append_length (a b : List Char) (n : Nat) :
    (a ++ b).take (a.length + n) = a ++ b.take n := by
  induction a with
  | nil => simp
  | cons c a ih =>
    simp only [List.cons_append, List.length_cons]
    have : a.length + 1 + n = (a.length + n) + 1 := by omega
    rw [this, List.take_succ_cons, ih]

lemma drop_takeWhile_split (p : Char → Bool) (l : List Char) (n : Nat) :
    l.drop n = (l.drop n).takeWhile p ++ l.drop (n + ((l.drop n).takeWhile p).length) := by
  have h1 : l.drop (n + ((l.drop n).takeWhile p).length) =
      (l.drop n).drop ((l.drop n).takeWhile p).length := by
    rw [List.drop_drop]
  rw [h1]
  have h2 : (l.drop n).takeWhile p = (l.drop n).take ((l.drop n).takeWhile p).length :=
    (take_takeWhile p (l.drop n)).symm
  calc l.drop n
      = (l.drop n).take ((l.drop n).takeWhile p).length ++
          (l.drop n).drop ((l.drop n).takeWhile p).length := by
        rw [List.take_append_drop]
    _ = (l.drop n).takeWhile p ++ (l.drop n).drop ((l.drop n).takeWhile p).length := by
        rw [← h2]

lemma parseInt_foldl (b : List Char) (z : Nat) :
    b.foldl (fun a c => 10 * a + (c.toNat - 48)) z = z * 10 ^ b.length + parseInt b := by
  induction b generalizing z with
  | nil => simp [parseInt]
  | cons c b ih =>
    have hz := ih (10 * z + (c.toNat - 48))
    have h0 : parseInt (c :: b) = (c.toNat - 48) * 10 ^ b.length + parseInt b := by
      rw [parseInt, List.foldl_cons, ih (10 * 0 + (c.toNat - 48))]
      ring_nf
    rw [List.foldl_cons, hz, h0, List.length_cons]
    ring

lemma parseInt_append (a b : List Char) :
    parseInt (a ++ b) = parseInt a * 10 ^ b.length + parseInt b := by
  rw [parseInt, List.foldl_append, ← parseInt, parseInt_foldl]

lemma isDigit_ne_dot {c : Char} (h : c.isDigit) : c ≠ '.' := by
  intro he
  rw [he] at h
  exact absurd h (by decide)

lemma takeWhile_dropWhile_dot (d1 d2 : List Char) (h : ∀ c ∈ d1, c ≠ '.') :
    (d1 ++ '.' :: d2).takeWhile (fun c => c ≠ '.') = d1 ∧
      (d1 ++ '.' :: d2).dropWhile (fun c => c ≠ '.') = '.' :: d2 := by
  induction d1 with
  | nil => simp [List.takeWhile_cons, List.dropWhile_cons]
  | cons c d1 ih =>
    have hc : c ≠ '.' := h c (List.mem_cons_self c d1)
    have ih2 := ih (fun x hx => h x (List.mem_cons_of_mem c hx))
    have hcb : decide (c ≠ '.') = true := by simp [hc]
    simp only [List.cons_append, List.takeWhile_cons, List.dropWhile_cons]
    constructor
    · rw [if_pos hcb, ih2.1]
    · rw [if_pos hcb, ih2.2]

lemma parseFloat_value (d1 d2 : List Char) (h : ∀ c ∈ d1, c ≠ '.') :
    parseFloat (d1 ++ '.' :: d2) =
      (parseInt d1 : Rat) + (parseInt d2 : Rat) / (10 : Rat) ^ d2.length := by
  obtain ⟨h1, h2⟩ := takeWhile_dropWhile_dot d1 d2 h
  rw [parseFloat]
  simp only [h1, h2, List.drop_succ_cons, List.drop_zero]
  rw [Rat.mkRat_eq_div, parseInt_append]
  have h10 : ((10 : Rat) ^ d2.length) ≠ 0 := by positivity
  push_cast
  field_simp

/-! ## Exact closed forms for the loops (with sufficient fuel) -/

lemma digits_loop_eq (f : Nat) (s : Lexer) (hf : s.source.length ≤ s.position + f) :
    digits_loop f s =
      { s with
        position := s.position + ((s.source.drop s.position).takeWhile Char.isDigit).length,
        column := s.column + ((s.source.drop s.position).takeWhile Char.isDigit).length } := by
  induction f generalizing s with
  | zero =>
    have hd : s.source.drop s.position = [] := List.drop_eq_nil_of_le (by omega)
    rw [digits_loop, hd]
    rfl
  | succ f ih =>
    by_cases h : s.position < s.source.length
    · have hc := char_at_eq_head s h
      by_cases hd : (char_at s s.position).isDigit
      · rw [digits_loop, if_pos ⟨h, hd⟩]
        have hf' : ({ s with position := s.position + 1, column := s.column + 1 } :
            Lexer).source.length ≤
            ({ s with position := s.position + 1, column := s.column + 1 } : Lexer).position + f := by
          dsimp only
          omega
        rw [ih _ hf']
        dsimp only
        rw [hc, List.takeWhile_cons, if_pos hd, List.length_cons]
        have h1 : s.position + 1 + ((s.source.drop (s.position + 1)).takeWhile Char.isDigit).length
            = s.position + (((s.source.drop (s.position + 1)).takeWhile Char.isDigit).length + 1) := by
          omega
        have h2 : s.column + 1 + ((s.source.drop (s.position + 1)).takeWhile Char.isDigit).length
            = s.column + (((s.source.drop (s.position + 1)).takeWhile Char.isDigit).length + 1) := by
          omega
        rw [h1, h2]
      · rw [digits_loop, if_neg (fun hh => hd hh.2)]
        rw [hc, List.takeWhile_cons, if_neg hd]
        rfl
    · rw [digits_loop, if_neg (fun hh => h hh.1)]
      rw [List.drop_eq_nil_of_le (by omega)]
      rfl

lemma ident_loop_eq (f : Nat) (s : Lexer) (hf : s.source.length ≤ s.position + f) :
    ident_loop f s =
      { s with
        position := s.position + ((s.source.drop s.position).takeWhile is_ident_char).length,
        column := s.column + ((s.source.drop s.position).takeWhile is_ident_char).length } := by
  induction f generalizing s with
  | zero =>
    have hd : s.source.drop s.position = [] := List.drop_eq_nil_of_le (by omega)
    rw [ident_loop, hd]
    rfl
  | succ f ih =>
    by_cases h : s.position < s.source.length
    · have hc := char_at_eq_head s h
      by_cases hd : is_ident_char (char_at s s.position)
      · rw [ident_loop, if_pos ⟨h, hd⟩]
        have hf' : ({ s with position := s.position + 1, column := s.column + 1 } :
            Lexer).source.length ≤
            ({ s with position := s.position + 1, column := s.column + 1 } : Lexer).position + f := by
          dsimp only
          omega
        rw [ih _ hf']
        dsimp only
        rw [hc, List.takeWhile_cons, if_pos hd, List.length_cons]
        have h1 : s.position + 1 + ((s.source.drop (s.position + 1)).takeWhile is_ident_char).length
            = s.position + (((s.source.drop (s.position + 1)).takeWhile is_ident_char).length + 1) := by
          omega
        have h2 : s.column + 1 + ((s.source.drop (s.position + 1)).takeWhile is_ident_char).length
            = s.column + (((s.source.drop (s.position + 1)).takeWhile is_ident_char).length + 1) := by
          omega
        rw [h1, h2]
      · rw [ident_loop, if_neg (fun hh => hd hh.2)]
        rw [hc, List.takeWhile_cons, if_neg hd]
        rfl
    · rw [ident_loop, if_neg (fun hh => h hh.1)]
      rw [List.drop_eq_nil_of_le (by omega)]
      rfl

lemma svs_cons (quote c : Char) (cs : List Char) :
    string_value_spec quote (c :: cs) =
      if c = quote then []
      else if c = '\\' then
        (match cs with
         | [] => []
         | e :: cs2 => escape_char_value e :: string_value_spec quote cs2)
      else c :: string_value_spec quote cs := by
  rw [string_value_spec.eq_def]

lemma svs_quote {quote c : Char} (cs : List Char) (h : c = quote) :
    string_value_spec quote (c :: cs) = [] := by
  rw [svs_cons, if_pos h]

lemma svs_backslash_cons {quote c : Char} (e : Char) (cs2 : List Char)
    (h1 : ¬c = quote) (h2 : c = '\\') :
    string_value_spec quote (c :: e :: cs2) =
      escape_char_value e :: string_value_spec quote cs2 := by
  rw [svs_cons, if_neg h1, if_pos h2]

lemma svs_backslash_nil {quote c : Char} (h1 : ¬c = quote) (h2 : c = '\\') :
    string_value_spec quote [c] = [] := by
  rw [svs_cons, if_neg h1, if_pos h2]

lemma svs_other {quote c : Char} (cs : List Char) (h1 : ¬c = quote) (h2 : ¬c = '\\') :
    string_value_spec quote (c :: cs) = c :: string_value_spec quote cs := by
  rw [svs_cons, if_neg h1, if_neg h2]

lemma string_loop_value (quote : Char) (f : Nat) (s : Lexer) (v : List Char)
    (hf : s.source.length ≤ s.position + f) :
    (string_loop quote f s v).2 = v ++ string_value_spec quote (s.source.drop s.position) := by
  induction f generalizing s v with
  | zero =>
    have hd : s.source.drop s.position = [] := List.drop_eq_nil_of_le (by omega)
    rw [string_loop, hd, string_value_spec]
    simp
  | succ f ih =>
    by_cases h : s.position < s.source.length
    · have hc := drop_cons_at s s.position h
      by_cases hq : char_at s s.position = quote
      · rw [string_loop, if_neg (fun hh => hh.2 hq), hc, svs_quote _ hq]
        simp
      · by_cases hb : char_at s s.position = '\\'
        · by_cases hin : s.position + 1 < s.source.length
          · have hc2 := drop_cons_at s (s.position + 1) hin
            rw [string_loop, if_pos ⟨h, hq⟩, if_pos hb]
            dsimp only
            rw [if_pos hin]
            have hchar : char_at { s with position := s.position + 1, column := s.column + 1 }
                (s.position + 1) = char_at s (s.position + 1) := rfl
            rw [hchar]
            have ih2 := ih { s with position := s.position + 1 + 1, column := s.column + 1 + 1 }
              (v ++ [escape_char_value (char_at s (s.position + 1))]) (by dsimp only; omega)
            dsimp only at ih2
            rw [ih2, hc, hc2, svs_backslash_cons _ _ hq hb, List.append_assoc]
            rfl
          · rw [string_loop, if_pos ⟨h, hq⟩, if_pos hb]
            dsimp only
            rw [if_neg hin]
            have ih2 := ih { s with position := s.position + 1 + 1, column := s.column + 1 + 1 }
              v (by dsimp only; omega)
            dsimp only at ih2
            rw [ih2]
            have hd1 : s.source.drop (s.position + 1) = [] := List.drop_eq_nil_of_le (by omega)
            have hd2 : s.source.drop (s.position + 1 + 1) = [] := List.drop_eq_nil_of_le (by omega)
            rw [hd2, hc, hd1, svs_backslash_nil hq hb]
            rfl
        · rw [string_loop, if_pos ⟨h, hq⟩, if_neg hb]
          have ih2 := ih { s with position := s.position + 1, column := s.column + 1 }
            (v ++ [char_at s s.position]) (by dsimp only; omega)
          dsimp only at ih2
          rw [ih2, hc, svs_other _ hq hb, List.append_assoc]
          rfl
    · have hd : s.source.drop s.position = [] := List.drop_eq_nil_of_le (by omega)
      rw [string_loop, if_neg (fun hh => h hh.1), hd, string_value_spec]
      simp

/-! ## Closed forms for the readers -/

lemma read_identifier_eq (s : Lexer) :
    read_identifier s =
      { s with
        position := s.position + ((s.source.drop s.position).takeWhile is_ident_char).length,
        column := s.column + ((s.source.drop s.position).takeWhile is_ident_char).length,
        tokens := s.tokens ++
          [{ type := (KEYWORDS.lookup ((s.source.drop s.position).takeWhile is_ident_char)).getD
                TokenType.IDENTIFIER,
             value := TokValue.str ((s.source.drop s.position).takeWhile is_ident_char),
             line := s.line,
             column := s.column +
               ((s.source.drop s.position).takeWhile is_ident_char).length }] } := by
  simp only [read_identifier]
  rw [ident_loop_eq _ _ (by omega)]
  dsimp only
  rw [Nat.add_sub_cancel_left, take_takeWhile]
  rfl

lemma read_number_eq_int (s : Lexer) (d1 : List Char)
    (hd1 : d1 = (s.source.drop s.position).takeWhile Char.isDigit)
    (h : ¬(s.position + d1.length < s.source.length ∧
        char_at s (s.position + d1.length) = '.')) :
    read_number s =
      { s with
        position := s.position + d1.length,
        column := s.column + d1.length,
        tokens := s.tokens ++
          [{ type := TokenType.INTEGER, value := TokValue.int (parseInt d1),
             line := s.line, column := s.column + d1.length }] } := by
  simp only [read_number]
  rw [digits_loop_eq _ _ (by omega)]
  dsimp only
  rw [← hd1]
  have hchar : char_at { s with position := s.position + d1.length, column := s.column + d1.length }
      (s.position + d1.length) = char_at s (s.position + d1.length) := rfl
  rw [hchar, if_neg h, Nat.add_sub_cancel_left, hd1, take_takeWhile, ← hd1]
  rfl

lemma read_number_eq_float (s : Lexer) (d1 d2 : List Char)
    (hd1 : d1 = (s.source.drop s.position).takeWhile Char.isDigit)
    (h1 : s.position + d1.length < s.source.length)
    (hdot : char_at s (s.position + d1.length) = '.')
    (hd2 : d2 = (s.source.drop (s.position + d1.length + 1)).takeWhile Char.isDigit) :
    read_number s =
      { s with
        position := s.position + d1.length + 1 + d2.length,
        column := s.column + d1.length + 1 + d2.length,
        tokens := s.tokens ++
          [{ type := TokenType.FLOAT, value := TokValue.float (parseFloat (d1 ++ '.' :: d2)),
             line := s.line, column := s.column + d1.length + 1 + d2.length }] } := by
  have hsplit : (s.source.drop s.position).take (s.position + d1.length + 1 + d2.length
      - s.position) = d1 ++ '.' :: d2 := by
    have e1 : s.source.drop s.position =
        d1 ++ s.source.drop (s.position + d1.length) := by
      rw [hd1]
      exact drop_takeWhile_split Char.isDigit s.source s.position
    have e2 : s.source.drop (s.position + d1.length) =
        '.' :: s.source.drop (s.position + d1.length + 1) := by
      rw [drop_cons_at s _ h1, hdot]
    have e3 : s.source.drop (s.position + d1.length + 1) =
        d2 ++ s.source.drop (s.position + d1.length + 1 + d2.length) := by
      rw [hd2]
      exact drop_takeWhile_split Char.isDigit s.source (s.position + d1.length + 1)
    have e4 : s.position + d1.length + 1 + d2.length - s.position =
        d1.length + (1 + d2.length) := by omega
    rw [e4, e1, e2, e3, take_append_length]
    have e5 : (1 : Nat) + d2.length = d2.length + 1 := by omega
    rw [e5, List.take_succ_cons]
    have e7 := take_append_length d2 (s.source.drop (s.position + d1.length + 1 + d2.length)) 0
    simp only [Nat.add_zero, List.take_zero, List.append_nil] at e7
    rw [e7]
  simp only [read_number]
  rw [digits_loop_eq _ _ (by omega)]
  dsimp only
  rw [← hd1]
  have hchar : char_at { s with position := s.position + d1.length, column := s.column + d1.length }
      (s.position + d1.length) = char_at s (s.position + d1.length) := rfl
  rw [hchar, if_pos ⟨h1, hdot⟩]
  rw [digits_loop_eq _ _ (by dsimp only; omega)]
  dsimp only
  rw [← hd2, hsplit]
  rfl

lemma read_string_eq (s : Lexer) (quote : Char) :
    ∃ k, 1 ≤ k ∧ read_string s quote =
      { s with
        position := s.position + k,
        column := s.column + k,
        tokens := s.tokens ++
          [{ type := TokenType.STRING,
             value := TokValue.str
               (string_value_spec quote (s.source.drop (s.position + 1))),
             line := s.line, column := s.column + k }] } := by
  obtain ⟨k1, w, hshape⟩ := string_loop_shape quote
    (s.source.length + 1) { s with position := s.position + 1, column := s.column + 1 } []
  have hval := string_loop_value quote (s.source.length + 1)
    { s with position := s.position + 1, column := s.column + 1 } [] (by dsimp only; omega)
  dsimp only at hshape hval
  rw [hshape] at hval
  dsimp only at hval
  simp only [List.nil_append] at hshape hval
  by_cases hclose : s.position + 1 + k1 < s.source.length
  · refine ⟨1 + k1 + 1, by omega, ?_⟩
    simp only [read_string, hshape]
    rw [if_pos hclose, hval]
    have e1 : s.position + 1 + k1 + 1 = s.position + (1 + k1 + 1) := by omega
    have e2 : s.column + 1 + k1 + 1 = s.column + (1 + k1 + 1) := by omega
    rw [e1, e2]
    rfl
  · refine ⟨1 + k1, by omega, ?_⟩
    simp only [read_string, hshape]
    rw [if_neg hclose, hval]
    have e1 : s.position + 1 + k1 = s.position + (1 + k1) := by omega
    have e2 : s.column + 1 + k1 = s.column + (1 + k1) := by omega
    rw [e1, e2]
    rfl

/-! ## Operator, punctuation and dispatch lemmas -/

lemma add_token_eq (s : Lexer) (ty : TokenType) (v : TokValue) :
    add_token s ty v =
      { s with tokens := s.tokens ++
          [{ type := ty, value := v, line := s.line, column := s.column }] } := rfl

lemma punct1_eq (s : Lexer) (ty : TokenType) (c : Char) :
    punct1 s ty c =
      { s with
        position := s.position + 1,
        column := s.column + 1,
        tokens := s.tokens ++
          [{ type := ty, value := TokValue.str [c], line := s.line, column := s.column }] } := rfl

lemma read_operator_one_known (s : Lexer) (c : Char)
    (h : c ∈ ['+', '-', '*', '/', '%', '=', '<', '>', '|']) :
    ∃ t, read_operator_one s c =
      { s with
        position := s.position + 1,
        column := s.column + 1,
        tokens := s.tokens ++ [t] } ∧
      t.line = s.line ∧ t.column = s.column ∧ t.value = TokValue.str [c] ∧
      t.type ∈ [TokenType.PLUS, TokenType.MINUS, TokenType.STAR, TokenType.SLASH,
        TokenType.PERCENT, TokenType.ASSIGN, TokenType.LT, TokenType.GT, TokenType.PIPE] := by
  fin_cases h <;> exact ⟨_, rfl, rfl, rfl, rfl, by simp⟩

set_option maxHeartbeats 1000000 in
lemma read_operator_one_unknown (s : Lexer) (c : Char)
    (h : c ∉ ['+', '-', '*', '/', '%', '=', '<', '>', '|']) :
    read_operator_one s c =
      { s with
        position := s.position + 1,
        column := s.column + 1,
        warnings := s.warnings ++ [(c, s.line, s.column)] } := by
  simp only [read_operator_one]
  split_ifs with g1 g2 g3 g4 g5 g6 g7 g8 g9
  · exact (absurd (show c ∈ ['+', '-', '*', '/', '%', '=', '<', '>', '|'] by
      rw [g1]; decide) h)
  · exact (absurd (show c ∈ ['+', '-', '*', '/', '%', '=', '<', '>', '|'] by
      rw [g2]; decide) h)
  · exact (absurd (show c ∈ ['+', '-', '*', '/', '%', '=', '<', '>', '|'] by
      rw [g3]; decide) h)
  · exact (absurd (show c ∈ ['+', '-', '*', '/', '%', '=', '<', '>', '|'] by
      rw [g4]; decide) h)
  · exact (absurd (show c ∈ ['+', '-', '*', '/', '%', '=', '<', '>', '|'] by
      rw [g5]; decide) h)
  · exact (absurd (show c ∈ ['+', '-', '*', '/', '%', '=', '<', '>', '|'] by
      rw [g6]; decide) h)
  · exact (absurd (show c ∈ ['+', '-', '*', '/', '%', '=', '<', '>', '|'] by
      rw [g7]; decide) h)
  · exact (absurd (show c ∈ ['+', '-', '*', '/', '%', '=', '<', '>', '|'] by
      rw [g8]; decide) h)
  · exact (absurd (show c ∈ ['+', '-', '*', '/', '%', '=', '<', '>', '|'] by
      rw [g9]; decide) h)
  · rfl

set_option maxHeartbeats 1000000 in
lemma read_operator_one_shape (s : Lexer) (c : Char) :
    (read_operator_one s c).source = s.source ∧
    (read_operator_one s c).position = s.position + 1 ∧
    (read_operator_one s c).line = s.line ∧
    (read_operator_one s c).column = s.column + 1 ∧
    (read_operator_one s c).indent_stack = s.indent_stack ∧
    ((read_operator_one s c).tokens = s.tokens ∧
        (read_operator_one s c).warnings = s.warnings ++ [(c, s.line, s.column)] ∨
      ∃ t, (read_operator_one s c).tokens = s.tokens ++ [t] ∧
        (read_operator_one s c).warnings = s.warnings ∧
        t.line = s.line ∧ t.column = s.column ∧
        t.type ∈ [TokenType.PLUS, TokenType.MINUS, TokenType.STAR, TokenType.SLASH,
          TokenType.PERCENT, TokenType.ASSIGN, TokenType.LT, TokenType.GT, TokenType.PIPE]) := by
  simp only [read_operator_one]
  split_ifs <;>
    first
      | exact ⟨rfl, rfl, rfl, rfl, rfl, Or.inr ⟨_, rfl, rfl, rfl, rfl, by simp⟩⟩
      | exact ⟨rfl, rfl, rfl, rfl, rfl, Or.inl ⟨rfl, rfl⟩⟩

lemma op_types_sub (x : TokenType)
    (h : x ∈ [TokenType.PLUS, TokenType.MINUS, TokenType.STAR, TokenType.SLASH,
      TokenType.PERCENT, TokenType.ASSIGN, TokenType.LT, TokenType.GT, TokenType.PIPE]) :
    x ∈ [TokenType.EQ, TokenType.NEQ, TokenType.LE, TokenType.GE, TokenType.ARROW,
      TokenType.POW, TokenType.PIPE, TokenType.PLUS, TokenType.MINUS, TokenType.STAR,
      TokenType.SLASH, TokenType.PERCENT, TokenType.ASSIGN, TokenType.LT, TokenType.GT] := by
  fin_cases h <;> simp

set_option maxHeartbeats 1000000 in
lemma read_operator_shape (s : Lexer) :
    ∃ n, 1 ≤ n ∧ n ≤ 2 ∧
      (read_operator s).source = s.source ∧
      (read_operator s).position = s.position + n ∧
      (read_operator s).line = s.line ∧
      (read_operator s).column = s.column + n ∧
      (read_operator s).indent_stack = s.indent_stack ∧
      ((read_operator s).tokens = s.tokens ∧
          (read_operator s).warnings = s.warnings ++ [(char_at s s.position, s.line, s.column)] ∨
        ∃ t, (read_operator s).tokens = s.tokens ++ [t] ∧
          (read_operator s).warnings = s.warnings ∧
          t.line = s.line ∧ t.column = s.column ∧
          t.type ∈ [TokenType.EQ, TokenType.NEQ, TokenType.LE, TokenType.GE, TokenType.ARROW,
            TokenType.POW, TokenType.PIPE, TokenType.PLUS, TokenType.MINUS, TokenType.STAR,
            TokenType.SLASH, TokenType.PERCENT, TokenType.ASSIGN, TokenType.LT,
            TokenType.GT]) := by
  have hone := read_operator_one_shape s (char_at s s.position)
  simp only [read_operator]
  split_ifs with hl h1 h2 h3 h4 h5 h6 h7
  · exact ⟨2, by omega, by omega, rfl, rfl, rfl, rfl, rfl,
      Or.inr ⟨_, rfl, rfl, rfl, rfl, by simp⟩⟩
  · exact ⟨2, by omega, by omega, rfl, rfl, rfl, rfl, rfl,
      Or.inr ⟨_, rfl, rfl, rfl, rfl, by simp⟩⟩
  · exact ⟨2, by omega, by omega, rfl, rfl, rfl, rfl, rfl,
      Or.inr ⟨_, rfl, rfl, rfl, rfl, by simp⟩⟩
  · exact ⟨2, by omega, by omega, rfl, rfl, rfl, rfl, rfl,
      Or.inr ⟨_, rfl, rfl, rfl, rfl, by simp⟩⟩
  · exact ⟨2, by omega, by omega, rfl, rfl, rfl, rfl, rfl,
      Or.inr ⟨_, rfl, rfl, rfl, rfl, by simp⟩⟩
  · exact ⟨2, by omega, by omega, rfl, rfl, rfl, rfl, rfl,
      Or.inr ⟨_, rfl, rfl, rfl, rfl, by simp⟩⟩
  · exact ⟨2, by omega, by omega, rfl, rfl, rfl, rfl, rfl,
      Or.inr ⟨_, rfl, rfl, rfl, rfl, by simp⟩⟩
  · obtain ⟨a, b, c, d, e, f⟩ := hone
    refine ⟨1, by omega, by omega, a, b, c, d, e, ?_⟩
    rcases f with hf | ⟨t, ht⟩
    · exact Or.inl hf
    · exact Or.inr ⟨t, ht.1, ht.2.1, ht.2.2.1, ht.2.2.2.1, op_types_sub _ ht.2.2.2.2⟩
  · obtain ⟨a, b, c, d, e, f⟩ := hone
    refine ⟨1, by omega, by omega, a, b, c, d, e, ?_⟩
    rcases f with hf | ⟨t, ht⟩
    · exact Or.inl hf
    · exact Or.inr ⟨t, ht.1, ht.2.1, ht.2.2.1, ht.2.2.2.1, op_types_sub _ ht.2.2.2.2⟩

/-! ## Shape of the dispatch step -/

lemma takeWhile_head_ge_one {p : Char → Bool} (s : Lexer)
    (h : s.position < s.source.length) (hp : p (char_at s s.position)) :
    1 ≤ ((s.source.drop s.position).takeWhile p).length := by
  rw [drop_cons_at s _ h, List.takeWhile_cons, if_pos hp]
  simp

lemma keywords_lookup_types (w : List Char) :
    (KEYWORDS.lookup w).getD TokenType.IDENTIFIER ≠ TokenType.EOF ∧
    (KEYWORDS.lookup w).getD TokenType.IDENTIFIER ≠ TokenType.INDENT ∧
    (KEYWORDS.lookup w).getD TokenType.IDENTIFIER ≠ TokenType.DEDENT := by
  have hmem : ∀ t : TokenType, KEYWORDS.lookup w = some t →
      t ∈ [TokenType.DEF, TokenType.LET, TokenType.IF, TokenType.ELSE, TokenType.LAMBDA,
        TokenType.MATCH, TokenType.QUANTUM, TokenType.ASYNC, TokenType.AWAIT, TokenType.RETURN,
        TokenType.IMPORT, TokenType.MODULE, TokenType.BOOLEAN, TokenType.AND, TokenType.OR,
        TokenType.NOT] := by
    intro t hk
    simp only [KEYWORDS, List.lookup_cons] at hk
    repeat' split at hk
    all_goals first
      | (injection hk with hk2; rw [← hk2]; decide)
      | (exact absurd hk (by simp [List.lookup]))
  cases hk : KEYWORDS.lookup w with
  | none => exact ⟨by decide, by decide, by decide⟩
  | some t =>
    have := hmem t hk
    fin_cases this <;> exact ⟨by decide, by decide, by decide⟩

lemma isAlpha_or_underscore_ident {c : Char} (h : c.isAlpha ∨ c = '_') :
    is_ident_char c := by
  rcases h with h | h
  · simp [is_ident_char, Char.isAlphanum, h]
  · simp [is_ident_char, h]

lemma op15_ne (x : TokenType)
    (hx : x ∈ [TokenType.EQ, TokenType.NEQ, TokenType.LE, TokenType.GE, TokenType.ARROW,
      TokenType.POW, TokenType.PIPE, TokenType.PLUS, TokenType.MINUS, TokenType.STAR,
      TokenType.SLASH, TokenType.PERCENT, TokenType.ASSIGN, TokenType.LT, TokenType.GT]) :
    x ≠ TokenType.EOF ∧ x ≠ TokenType.INDENT ∧ x ≠ TokenType.DEDENT := by
  fin_cases hx <;> exact ⟨by decide, by decide, by decide⟩

lemma scan_step_eq_newline (s : Lexer) (h : char_at s s.position = '\n') :
    scan_step s =
      { s with
        position := s.position + 1,
        line := s.line + 1,
        column := 1,
        tokens := s.tokens ++
          [{ type := TokenType.NEWLINE, value := TokValue.str ['\n'],
             line := s.line + 1 - 1, column := 1 }] } := by
  simp only [scan_step]
  rw [if_pos h]

lemma scan_step_eq_number (s : Lexer) (h1 : ¬char_at s s.position = '\n')
    (h2 : (char_at s s.position).isDigit = true) :
    scan_step s = read_number s := by
  simp only [scan_step]
  rw [if_neg h1, if_pos h2]

lemma scan_step_eq_ident (s : Lexer) (h1 : ¬char_at s s.position = '\n')
    (h2 : ¬(char_at s s.position).isDigit = true)
    (h3 : (char_at s s.position).isAlpha = true ∨ char_at s s.position = '_') :
    scan_step s = read_identifier s := by
  simp only [scan_step]
  rw [if_neg h1, if_neg h2, if_pos h3]

lemma scan_step_eq_string (s : Lexer) (h1 : ¬char_at s s.position = '\n')
    (h2 : ¬(char_at s s.position).isDigit = true)
    (h3 : ¬((char_at s s.position).isAlpha = true ∨ char_at s s.position = '_'))
    (h4 : char_at s s.position = '"' ∨ char_at s s.position = '\x27') :
    scan_step s = read_string s (char_at s s.position) := by
  simp only [scan_step]
  rw [if_neg h1, if_neg h2, if_neg h3, if_pos h4]

lemma scan_step_eq_colon (s : Lexer) (h : char_at s s.position = ':') :
    scan_step s = punct1 s TokenType.COLON ':' := by
  simp [scan_step, h]

lemma scan_step_eq_semicolon (s : Lexer) (h : char_at s s.position = ';') :
    scan_step s = punct1 s TokenType.SEMICOLON ';' := by
  simp [scan_step, h]

lemma scan_step_eq_comma (s : Lexer) (h : char_at s s.position = ',') :
    scan_step s = punct1 s TokenType.COMMA ',' := by
  simp [scan_step, h]

lemma scan_step_eq_dot (s : Lexer) (h : char_at s s.position = '.') :
    scan_step s = punct1 s TokenType.DOT '.' := by
  simp [scan_step, h]

lemma scan_step_eq_lparen (s : Lexer) (h : char_at s s.position = '(') :
    scan_step s = punct1 s TokenType.LPAREN '(' := by
  simp [scan_step, h]

lemma scan_step_eq_rparen (s : Lexer) (h : char_at s s.position = ')') :
    scan_step s = punct1 s TokenType.RPAREN ')' := by
  simp [scan_step, h]

lemma scan_step_eq_lbracket (s : Lexer) (h : char_at s s.position = '[') :
    scan_step s = punct1 s TokenType.LBRACKET '[' := by
  simp [scan_step, h]

lemma scan_step_eq_rbracket (s : Lexer) (h : char_at s s.position = ']') :
    scan_step s = punct1 s TokenType.RBRACKET ']' := by
  simp [scan_step, h]

lemma scan_step_eq_lbrace (s : Lexer) (h : char_at s s.position = '\x7b') :
    scan_step s = punct1 s TokenType.LBRACE '\x7b' := by
  simp [scan_step, h]

lemma scan_step_eq_rbrace (s : Lexer) (h : char_at s s.position = '\x7d') :
    scan_step s = punct1 s TokenType.RBRACE '\x7d' := by
  simp [scan_step, h]

lemma scan_step_eq_operator (s : Lexer) (h1 : ¬char_at s s.position = '\n')
    (h2 : ¬(char_at s s.position).isDigit = true)
    (h3 : ¬((char_at s s.position).isAlpha = true ∨ char_at s s.position = '_'))
    (h4 : ¬(char_at s s.position = '"' ∨ char_at s s.position = '\x27'))
    (h5 : ¬char_at s s.position = ':') (h6 : ¬char_at s s.position = ';')
    (h7 : ¬char_at s s.position = ',') (h8 : ¬char_at s s.position = '.')
    (h9 : ¬char_at s s.position = '(') (h10 : ¬char_at s s.position = ')')
    (h11 : ¬char_at s s.position = '[') (h12 : ¬char_at s s.position = ']')
    (h13 : ¬char_at s s.position = '\x7b') (h14 : ¬char_at s s.position = '\x7d') :
    scan_step s = read_operator s := by
  simp only [scan_step]
  rw [if_neg h1, if_neg h2, if_neg h3, if_neg h4, if_neg h5, if_neg h6, if_neg h7, if_neg h8,
    if_neg h9, if_neg h10, if_neg h11, if_neg h12, if_neg h13, if_neg h14]

lemma punct1_shape (s : Lexer) (ty : TokenType) (c : Char)
    (hty : ty ≠ TokenType.EOF ∧ ty ≠ TokenType.INDENT ∧ ty ≠ TokenType.DEDENT) :
    (punct1 s ty c).source = s.source ∧
    (punct1 s ty c).indent_stack = s.indent_stack ∧
    s.position < (punct1 s ty c).position ∧
    ∃ ext, (punct1 s ty c).tokens = s.tokens ++ ext ∧
      ∀ t ∈ ext, t.type ≠ TokenType.EOF ∧ t.type ≠ TokenType.INDENT ∧
        t.type ≠ TokenType.DEDENT := by
  rw [punct1_eq]
  refine ⟨rfl, rfl, Nat.lt_succ_self _, _, rfl, ?_⟩
  intro t ht
  rw [List.mem_singleton] at ht
  subst ht
  exact hty

lemma scan_step_shape (s : Lexer) (h : s.position < s.source.length) :
    (scan_step s).source = s.source ∧
    (scan_step s).indent_stack = s.indent_stack ∧
    s.position < (scan_step s).position ∧
    ∃ ext, (scan_step s).tokens = s.tokens ++ ext ∧
      ∀ t ∈ ext, t.type ≠ TokenType.EOF ∧ t.type ≠ TokenType.INDENT ∧
        t.type ≠ TokenType.DEDENT := by
  by_cases c1 : char_at s s.position = '\n'
  · rw [scan_step_eq_newline s c1]
    exact ⟨rfl, rfl, Nat.lt_succ_self _, _, rfl, by simp⟩
  by_cases c2 : (char_at s s.position).isDigit = true
  · rw [scan_step_eq_number s c1 c2]
    by_cases hdot : s.position + ((s.source.drop s.position).takeWhile Char.isDigit).length
        < s.source.length ∧
      char_at s (s.position + ((s.source.drop s.position).takeWhile Char.isDigit).length) = '.'
    · rw [read_number_eq_float s _ _ rfl hdot.1 hdot.2 rfl]
      refine ⟨rfl, rfl, ?_, _, rfl, by simp⟩
      show s.position < s.position + _ + 1 + _
      omega
    · rw [read_number_eq_int s _ rfl hdot]
      refine ⟨rfl, rfl, ?_, _, rfl, by simp⟩
      have hge := takeWhile_head_ge_one s h c2
      show s.position <
        s.position + ((s.source.drop s.position).takeWhile Char.isDigit).length
      omega
  by_cases c3 : (char_at s s.position).isAlpha = true ∨ char_at s s.position = '_'
  · rw [scan_step_eq_ident s c1 c2 c3]
    rw [read_identifier_eq s]
    refine ⟨rfl, rfl, ?_, _, rfl, ?_⟩
    · have hge := takeWhile_head_ge_one s h (isAlpha_or_underscore_ident c3)
      show s.position <
        s.position + ((s.source.drop s.position).takeWhile is_ident_char).length
      omega
    · intro t ht
      rw [List.mem_singleton] at ht
      subst ht
      exact keywords_lookup_types _
  by_cases c4 : char_at s s.position = '"' ∨ char_at s s.position = '\x27'
  · rw [scan_step_eq_string s c1 c2 c3 c4]
    obtain ⟨k, hk1, hk⟩ := read_string_eq s (char_at s s.position)
    rw [hk]
    refine ⟨rfl, rfl, ?_, _, rfl, by simp⟩
    show s.position < s.position + k
    omega
  by_cases c5 : char_at s s.position = ':'
  · rw [scan_step_eq_colon s c5]
    exact punct1_shape s _ _ ⟨by decide, by decide, by decide⟩
  by_cases c6 : char_at s s.position = ';'
  · rw [scan_step_eq_semicolon s c6]
    exact punct1_shape s _ _ ⟨by decide, by decide, by decide⟩
  by_cases c7 : char_at s s.position = ','
  · rw [scan_step_eq_comma s c7]
    exact punct1_shape s _ _ ⟨by decide, by decide, by decide⟩
  by_cases c8 : char_at s s.position = '.'
  · rw [scan_step_eq_dot s c8]
    exact punct1_shape s _ _ ⟨by decide, by decide, by decide⟩
  by_cases c9 : char_at s s.position = '('
  · rw [scan_step_eq_lparen s c9]
    exact punct1_shape s _ _ ⟨by decide, by decide, by decide⟩
  by_cases c10 : char_at s s.position = ')'
  · rw [scan_step_eq_rparen s c10]
    exact punct1_shape s _ _ ⟨by decide, by decide, by decide⟩
  by_cases c11 : char_at s s.position = '['
  · rw [scan_step_eq_lbracket s c11]
    exact punct1_shape s _ _ ⟨by decide, by decide, by decide⟩
  by_cases c12 : char_at s s.position = ']'
  · rw [scan_step_eq_rbracket s c12]
    exact punct1_shape s _ _ ⟨by decide, by decide, by decide⟩
  by_cases c13 : char_at s s.position = '\x7b'
  · rw [scan_step_eq_lbrace s c13]
    exact punct1_shape s _ _ ⟨by decide, by decide, by decide⟩
  by_cases c14 : char_at s s.position = '\x7d'
  · rw [scan_step_eq_rbrace s c14]
    exact punct1_shape s _ _ ⟨by decide, by decide, by decide⟩
  rw [scan_step_eq_operator s c1 c2 c3 c4 c5 c6 c7 c8 c9 c10 c11 c12 c13 c14]
  obtain ⟨n, hn1, hn2, hsrc, hpos, hline, hcol, hind, hor⟩ := read_operator_shape s
  refine ⟨hsrc, hind, by rw [hpos]; omega, ?_⟩
  rcases hor with ⟨ht, hw⟩ | ⟨t, ht, hw, hl, hc, hmem⟩
  · exact ⟨[], by rw [ht, List.append_nil], by simp⟩
  · refine ⟨[t], by rw [ht], ?_⟩
    intro x hx
    rw [List.mem_singleton] at hx
    subst hx
    exact op15_ne _ hmem

/-! ## Main loop lemmas -/

lemma skip_ws_shape (s : Lexer) :
    ∃ k j, j ≤ k ∧ skip_whitespace_and_comments s =
      { s with position := s.position + k, column := s.column + j } := by
  rw [skip_whitespace_and_comments]
  exact skip_ws_loop_shape _ s

lemma main_loop_stop (f : Nat) (s : Lexer) (h : ¬s.position < s.source.length) :
    main_loop f s = s := by
  cases f with
  | zero => rfl
  | succ f => rw [main_loop, if_neg h]

lemma main_loop_shape (f : Nat) : ∀ s : Lexer,
    (main_loop f s).source = s.source ∧
    (main_loop f s).indent_stack = s.indent_stack ∧
    s.position ≤ (main_loop f s).position ∧
    ∃ ext, (main_loop f s).tokens = s.tokens ++ ext ∧
      ∀ t ∈ ext, t.type ≠ TokenType.EOF ∧ t.type ≠ TokenType.INDENT ∧
        t.type ≠ TokenType.DEDENT := by
  induction f with
  | zero => exact fun s => ⟨rfl, rfl, Nat.le_refl _, [], (List.append_nil _).symm, by simp⟩
  | succ f ih =>
    intro s
    simp only [main_loop]
    by_cases h : s.position < s.source.length
    · rw [if_pos h]
      obtain ⟨k, j, hjk, hskip⟩ := skip_ws_shape s
      by_cases h1 : (skip_whitespace_and_comments s).position
          < (skip_whitespace_and_comments s).source.length
      · rw [if_pos h1]
        obtain ⟨hs2, hi2, hp2, ext2, ht2, hprop2⟩ := scan_step_shape _ h1
        obtain ⟨hs3, hi3, hp3, ext3, ht3, hprop3⟩ :=
          ih (scan_step (skip_whitespace_and_comments s))
        have ha : (skip_whitespace_and_comments s).position = s.position + k := by rw [hskip]
        refine ⟨?_, ?_, ?_, ext2 ++ ext3, ?_, ?_⟩
        · rw [hs3, hs2, hskip]
        · rw [hi3, hi2, hskip]
        · omega
        · rw [ht3, ht2, hskip]
          dsimp only
          rw [List.append_assoc]
        · intro t ht
          rcases List.mem_append.mp ht with hm | hm
          · exact hprop2 t hm
          · exact hprop3 t hm
      · rw [if_neg h1]
        refine ⟨by rw [hskip], by rw [hskip], ?_, [], by rw [hskip]; simp, by simp⟩
        rw [hskip]
        show s.position ≤ s.position + k
        omega
    · rw [if_neg h]
      exact ⟨rfl, rfl, Nat.le_refl _, [], by simp, by simp⟩

lemma main_loop_fuel (f : Nat) : ∀ (g : Nat) (s : Lexer), s.source.length ≤ s.position + f →
    s.source.length ≤ s.position + g → main_loop f s = main_loop g s := by
  induction f with
  | zero =>
    intro g s hf hg
    have h : ¬s.position < s.source.length := by omega
    rw [main_loop_stop _ _ h, main_loop_stop _ _ h]
  | succ f ih =>
    intro g s hf hg
    by_cases h : s.position < s.source.length
    · cases g with
      | zero => omega
      | succ g =>
        simp only [main_loop]
        rw [if_pos h, if_pos h]
        by_cases h1 : (skip_whitespace_and_comments s).position
            < (skip_whitespace_and_comments s).source.length
        · rw [if_pos h1, if_pos h1]
          obtain ⟨hs2, hi2, hp2, ext2, ht2, hprop2⟩ := scan_step_shape _ h1
          obtain ⟨k, j, hjk, hskip⟩ := skip_ws_shape s
          have e1 : (scan_step (skip_whitespace_and_comments s)).source = s.source := by
            rw [hs2, hskip]
          have e2 : (skip_whitespace_and_comments s).position = s.position + k := by rw [hskip]
          apply ih
          · rw [e1]
            omega
          · rw [e1]
            omega
        · rw [if_neg h1, if_neg h1]
    · rw [main_loop_stop _ _ h, main_loop_stop _ _ h]

lemma tokenize_form (source : List Char) :
    ∃ ext l c, tokenize source =
      ext ++ [{ type := TokenType.EOF, value := TokValue.none, line := l, column := c }] ∧
      ∀ t ∈ ext, t.type ≠ TokenType.EOF ∧ t.type ≠ TokenType.INDENT ∧
        t.type ≠ TokenType.DEDENT := by
  obtain ⟨hs, hi, hp, ext, htok, hprop⟩ := main_loop_shape (source.length + 1) (initLexer source)
  refine ⟨ext, (main_loop (source.length + 1) (initLexer source)).line,
    (main_loop (source.length + 1) (initLexer source)).column, ?_, hprop⟩
  rw [tokenize, tokenize_final, add_token_eq]
  dsimp only
  rw [htok]
  simp [initLexer]

/-! ## Closed forms for the Latin-1 layer -/

lemma py_isdigit_ne_dot {c : Char} (h : py_isdigit c = true) : c ≠ '.' := by
  intro he
  subst he
  exact absurd h (by decide)

lemma py_digits_loop_eq (f : Nat) (s : Lexer) (hf : s.source.length ≤ s.position + f) :
    py_digits_loop f s =
      { s with
        position := s.position + ((s.source.drop s.position).takeWhile py_isdigit).length,
        column := s.column + ((s.source.drop s.position).takeWhile py_isdigit).length } := by
  induction f generalizing s with
  | zero =>
    have hd : s.source.drop s.position = [] := List.drop_eq_nil_of_le (by omega)
    rw [py_digits_loop, hd]
    rfl
  | succ f ih =>
    by_cases h : s.position < s.source.length
    · have hc := char_at_eq_head s h
      by_cases hd : py_isdigit (char_at s s.position)
      · rw [py_digits_loop, if_pos ⟨h, hd⟩]
        have hf' : ({ s with position := s.position + 1, column := s.column + 1 } :
            Lexer).source.length ≤
            ({ s with position := s.position + 1, column := s.column + 1 } : Lexer).position + f := by
          dsimp only
          omega
        rw [ih _ hf']
        dsimp only
        rw [hc, List.takeWhile_cons, if_pos hd, List.length_cons]
        have h1 : s.position + 1 + ((s.source.drop (s.position + 1)).takeWhile py_isdigit).length
            = s.position + (((s.source.drop (s.position + 1)).takeWhile py_isdigit).length + 1) := by
          omega
        have h2 : s.column + 1 + ((s.source.drop (s.position + 1)).takeWhile py_isdigit).length
            = s.column + (((s.source.drop (s.position + 1)).takeWhile py_isdigit).length + 1) := by
          omega
        rw [h1, h2]
      · rw [py_digits_loop, if_neg (fun hh => hd hh.2)]
        rw [hc, List.takeWhile_cons, if_neg hd]
        rfl
    · rw [py_digits_loop, if_neg (fun hh => h hh.1)]
      rw [List.drop_eq_nil_of_le (by omega)]
      rfl

lemma py_ident_loop_eq (f : Nat) (s : Lexer) (hf : s.source.length ≤ s.position + f) :
    py_ident_loop f s =
      { s with
        position := s.position + ((s.source.drop s.position).takeWhile py_is_ident_char).length,
        column := s.column + ((s.source.drop s.position).takeWhile py_is_ident_char).length } := by
  induction f generalizing s with
  | zero =>
    have hd : s.source.drop s.position = [] := List.drop_eq_nil_of_le (by omega)
    rw [py_ident_loop, hd]
    rfl
  | succ f ih =>
    by_cases h : s.position < s.source.length
    · have hc := char_at_eq_head s h
      by_cases hd : py_is_ident_char (char_at s s.position)
      · rw [py_ident_loop, if_pos ⟨h, hd⟩]
        have hf' : ({ s with position := s.position + 1, column := s.column + 1 } :
            Lexer).source.length ≤
            ({ s with position := s.position + 1, column := s.column + 1 } : Lexer).position + f := by
          dsimp only
          omega
        rw [ih _ hf']
        dsimp only
        rw [hc, List.takeWhile_cons, if_pos hd, List.length_cons]
        have h1 : s.position + 1 +
            ((s.source.drop (s.position + 1)).takeWhile py_is_ident_char).length
            = s.position +
              (((s.source.drop (s.position + 1)).takeWhile py_is_ident_char).length + 1) := by
          omega
        have h2 : s.column + 1 +
            ((s.source.drop (s.position + 1)).takeWhile py_is_ident_char).length
            = s.column +
              (((s.source.drop (s.position + 1)).takeWhile py_is_ident_char).length + 1) := by
          omega
        rw [h1, h2]
      · rw [py_ident_loop, if_neg (fun hh => hd hh.2)]
        rw [hc, List.takeWhile_cons, if_neg hd]
        rfl
    · rw [py_ident_loop, if_neg (fun hh => h hh.1)]
      rw [List.drop_eq_nil_of_le (by omega)]
      rfl

lemma py_read_identifier_eq (s : Lexer) :
    py_read_identifier s =
      { s with
        position := s.position + ((s.source.drop s.position).takeWhile py_is_ident_char).length,
        column := s.column + ((s.source.drop s.position).takeWhile py_is_ident_char).length,
        tokens := s.tokens ++
          [{ type := (KEYWORDS.lookup ((s.source.drop s.position).takeWhile
                py_is_ident_char)).getD TokenType.IDENTIFIER,
             value := TokValue.str ((s.source.drop s.position).takeWhile py_is_ident_char),
             line := s.line,
             column := s.column +
               ((s.source.drop s.position).takeWhile py_is_ident_char).length }] } := by
  simp only [py_read_identifier]
  rw [py_ident_loop_eq _ _ (by omega)]
  dsimp only
  rw [Nat.add_sub_cancel_left, take_takeWhile]
  rfl

lemma py_read_number_eq_int_ok (s : Lexer) (d1 : List Char)
    (hd1 : d1 = (s.source.drop s.position).takeWhile py_isdigit)
    (h : ¬(s.position + d1.length < s.source.length ∧
        char_at s (s.position + d1.length) = '.'))
    (hdec : d1 ≠ [] ∧ d1.all Char.isDigit) :
    py_read_number s = Except.ok
      { s with
        position := s.position + d1.length,
        column := s.column + d1.length,
        tokens := s.tokens ++
          [{ type := TokenType.INTEGER, value := TokValue.int (parseInt d1),
             line := s.line, column := s.column + d1.length }] } := by
  simp only [py_read_number]
  rw [py_digits_loop_eq _ _ (by omega)]
  dsimp only
  rw [← hd1]
  have hchar : char_at { s with position := s.position + d1.length, column := s.column + d1.length }
      (s.position + d1.length) = char_at s (s.position + d1.length) := rfl
  rw [hchar, if_neg h, Nat.add_sub_cancel_left, hd1, take_takeWhile, ← hd1]
  rw [py_int, if_pos hdec]
  rfl

lemma py_read_number_eq_int_err (s : Lexer) (d1 : List Char)
    (hd1 : d1 = (s.source.drop s.position).takeWhile py_isdigit)
    (h : ¬(s.position + d1.length < s.source.length ∧
        char_at s (s.position + d1.length) = '.'))
    (hdec : ¬(d1 ≠ [] ∧ d1.all Char.isDigit)) :
    py_read_number s = Except.error d1 := by
  simp only [py_read_number]
  rw [py_digits_loop_eq _ _ (by omega)]
  dsimp only
  rw [← hd1]
  have hchar : char_at { s with position := s.position + d1.length, column := s.column + d1.length }
      (s.position + d1.length) = char_at s (s.position + d1.length) := rfl
  rw [hchar, if_neg h, Nat.add_sub_cancel_left, hd1, take_takeWhile, ← hd1]
  rw [py_int, if_neg hdec]

lemma py_slice_split (s : Lexer) (d1 d2 : List Char)
    (hd1 : d1 = (s.source.drop s.position).takeWhile py_isdigit)
    (h1 : s.position + d1.length < s.source.length)
    (hdot : char_at s (s.position + d1.length) = '.')
    (hd2 : d2 = (s.source.drop (s.position + d1.length + 1)).takeWhile py_isdigit) :
    (s.source.drop s.position).take (s.position + d1.length + 1 + d2.length
      - s.position) = d1 ++ '.' :: d2 := by
  have e1 : s.source.drop s.position =
      d1 ++ s.source.drop (s.position + d1.length) := by
    rw [hd1]
    exact drop_takeWhile_split py_isdigit s.source s.position
  have e2 : s.source.drop (s.position + d1.length) =
      '.' :: s.source.drop (s.position + d1.length + 1) := by
    rw [drop_cons_at s _ h1, hdot]
  have e3 : s.source.drop (s.position + d1.length + 1) =
      d2 ++ s.source.drop (s.position + d1.length + 1 + d2.length) := by
    rw [hd2]
    exact drop_takeWhile_split py_isdigit s.source (s.position + d1.length + 1)
  have e4 : s.position + d1.length + 1 + d2.length - s.position =
      d1.length + (1 + d2.length) := by omega
  rw [e4, e1, e2, e3, take_append_length]
  have e5 : (1 : Nat) + d2.length = d2.length + 1 := by omega
  rw [e5, List.take_succ_cons]
  have e7 := take_append_length d2 (s.source.drop (s.position + d1.length + 1 + d2.length)) 0
  simp only [Nat.add_zero, List.take_zero, List.append_nil] at e7
  rw [e7]

lemma py_float_split (d1 d2 : List Char)
    (hne : ∀ c ∈ d1, c ≠ '.') :
    py_float (d1 ++ '.' :: d2) =
      if d1 ≠ [] ∧ d1.all Char.isDigit ∧ d2.all Char.isDigit
      then some (parseFloat (d1 ++ '.' :: d2)) else none := by
  obtain ⟨ht, hdw⟩ := takeWhile_dropWhile_dot d1 d2 hne
  rw [py_float]
  simp only [ht, hdw, List.drop_succ_cons, List.drop_zero]

lemma py_read_number_eq_float_ok (s : Lexer) (d1 d2 : List Char)
    (hd1 : d1 = (s.source.drop s.position).takeWhile py_isdigit)
    (h1 : s.position + d1.length < s.source.length)
    (hdot : char_at s (s.position + d1.length) = '.')
    (hd2 : d2 = (s.source.drop (s.position + d1.length + 1)).takeWhile py_isdigit)
    (hdec : d1 ≠ [] ∧ d1.all Char.isDigit ∧ d2.all Char.isDigit) :
    py_read_number s = Except.ok
      { s with
        position := s.position + d1.length + 1 + d2.length,
        column := s.column + d1.length + 1 + d2.length,
        tokens := s.tokens ++
          [{ type := TokenType.FLOAT, value := TokValue.float (parseFloat (d1 ++ '.' :: d2)),
             line := s.line, column := s.column + d1.length + 1 + d2.length }] } := by
  have hne : ∀ c ∈ d1, c ≠ '.' := fun c hc =>
    py_isdigit_ne_dot (List.mem_takeWhile_imp (hd1 ▸ hc))
  simp only [py_read_number]
  rw [py_digits_loop_eq _ _ (by omega)]
  dsimp only
  rw [← hd1]
  have hchar : char_at { s with position := s.position + d1.length, column := s.column + d1.length }
      (s.position + d1.length) = char_at s (s.position + d1.length) := rfl
  rw [hchar, if_pos ⟨h1, hdot⟩]
  rw [py_digits_loop_eq _ _ (by dsimp only; omega)]
  dsimp only
  rw [← hd2, py_slice_split s d1 d2 hd1 h1 hdot hd2, py_float_split d1 d2 hne,
    if_pos hdec]
  rfl

lemma py_read_number_eq_float_err (s : Lexer) (d1 d2 : List Char)
    (hd1 : d1 = (s.source.drop s.position).takeWhile py_isdigit)
    (h1 : s.position + d1.length < s.source.length)
    (hdot : char_at s (s.position + d1.length) = '.')
    (hd2 : d2 = (s.source.drop (s.position + d1.length + 1)).takeWhile py_isdigit)
    (hdec : ¬(d1 ≠ [] ∧ d1.all Char.isDigit ∧ d2.all Char.isDigit)) :
    py_read_number s = Except.error (d1 ++ '.' :: d2) := by
  have hne : ∀ c ∈ d1, c ≠ '.' := fun c hc =>
    py_isdigit_ne_dot (List.mem_takeWhile_imp (hd1 ▸ hc))
  simp only [py_read_number]
  rw [py_digits_loop_eq _ _ (by omega)]
  dsimp only
  rw [← hd1]
  have hchar : char_at { s with position := s.position + d1.length, column := s.column + d1.length }
      (s.position + d1.length) = char_at s (s.position + d1.length) := rfl
  rw [hchar, if_pos ⟨h1, hdot⟩]
  rw [py_digits_loop_eq _ _ (by dsimp only; omega)]
  dsimp only
  rw [← hd2, py_slice_split s d1 d2 hd1 h1 hdot hd2, py_float_split d1 d2 hne,
    if_neg hdec]

/-! ## Dispatch and loop lemmas for the Latin-1 layer -/

lemma py_scan_step_eq_newline (s : Lexer) (h : char_at s s.position = '\n') :
    py_scan_step s = Except.ok
      { s with
        position := s.position + 1,
        line := s.line + 1,
        column := 1,
        tokens := s.tokens ++
          [{ type := TokenType.NEWLINE, value := TokValue.str ['\n'],
             line := s.line + 1 - 1, column := 1 }] } := by
  simp only [py_scan_step]
  rw [if_pos h]

lemma py_scan_step_eq_number (s : Lexer) (h1 : ¬char_at s s.position = '\n')
    (h2 : py_isdigit (char_at s s.position) = true) :
    py_scan_step s = py_read_number s := by
  simp only [py_scan_step]
  rw [if_neg h1, if_pos h2]

lemma py_scan_step_eq_ident (s : Lexer) (h1 : ¬char_at s s.position = '\n')
    (h2 : ¬py_isdigit (char_at s s.position) = true)
    (h3 : py_isalpha (char_at s s.position) = true ∨ char_at s s.position = '_') :
    py_scan_step s = Except.ok (py_read_identifier s) := by
  simp only [py_scan_step]
  rw [if_neg h1, if_neg h2, if_pos h3]

lemma py_scan_step_eq_string (s : Lexer) (h1 : ¬char_at s s.position = '\n')
    (h2 : ¬py_isdigit (char_at s s.position) = true)
    (h3 : ¬(py_isalpha (char_at s s.position) = true ∨ char_at s s.position = '_'))
    (h4 : char_at s s.position = '"' ∨ char_at s s.position = '\x27') :
    py_scan_step s = Except.ok (read_string s (char_at s s.position)) := by
  simp only [py_scan_step]
  rw [if_neg h1, if_neg h2, if_neg h3, if_pos h4]

lemma py_scan_step_eq_colon (s : Lexer) (h : char_at s s.position = ':') :
    py_scan_step s = Except.ok (punct1 s TokenType.COLON ':') := by
  simp [py_scan_step, h, py_isdigit, py_isalpha]

lemma py_scan_step_eq_semicolon (s : Lexer) (h : char_at s s.position = ';') :
    py_scan_step s = Except.ok (punct1 s TokenType.SEMICOLON ';') := by
  simp [py_scan_step, h, py_isdigit, py_isalpha]

lemma py_scan_step_eq_comma (s : Lexer) (h : char_at s s.position = ',') :
    py_scan_step s = Except.ok (punct1 s TokenType.COMMA ',') := by
  simp [py_scan_step, h, py_isdigit, py_isalpha]

lemma py_scan_step_eq_dot (s : Lexer) (h : char_at s s.position = '.') :
    py_scan_step s = Except.ok (punct1 s TokenType.DOT '.') := by
  simp [py_scan_step, h, py_isdigit, py_isalpha]

lemma py_scan_step_eq_lparen (s : Lexer) (h : char_at s s.position = '(') :
    py_scan_step s = Except.ok (punct1 s TokenType.LPAREN '(') := by
  simp [py_scan_step, h, py_isdigit, py_isalpha]

lemma py_scan_step_eq_rparen (s : Lexer) (h : char_at s s.position = ')') :
    py_scan_step s = Except.ok (punct1 s TokenType.RPAREN ')') := by
  simp [py_scan_step, h, py_isdigit, py_isalpha]

lemma py_scan_step_eq_lbracket (s : Lexer) (h : char_at s s.position = '[') :
    py_scan_step s = Except.ok (punct1 s TokenType.LBRACKET '[') := by
  simp [py_scan_step, h, py_isdigit, py_isalpha]

lemma py_scan_step_eq_rbracket (s : Lexer) (h : char_at s s.position = ']') :
    py_scan_step s = Except.ok (punct1 s TokenType.RBRACKET ']') := by
  simp [py_scan_step, h, py_isdigit, py_isalpha]

lemma py_scan_step_eq_lbrace (s : Lexer) (h : char_at s s.position = '\x7b') :
    py_scan_step s = Except.ok (punct1 s TokenType.LBRACE '\x7b') := by
  simp [py_scan_step, h, py_isdigit, py_isalpha]

lemma py_scan_step_eq_rbrace (s : Lexer) (h : char_at s s.position = '\x7d') :
    py_scan_step s = Except.ok (punct1 s TokenType.RBRACE '\x7d') := by
  simp [py_scan_step, h, py_isdigit, py_isalpha]

lemma py_scan_step_eq_operator (s : Lexer) (h1 : ¬char_at s s.position = '\n')
    (h2 : ¬py_isdigit (char_at s s.position) = true)
    (h3 : ¬(py_isalpha (char_at s s.position) = true ∨ char_at s s.position = '_'))
    (h4 : ¬(char_at s s.position = '"' ∨ char_at s s.position = '\x27'))
    (h5 : ¬char_at s s.position = ':') (h6 : ¬char_at s s.position = ';')
    (h7 : ¬char_at s s.position = ',') (h8 : ¬char_at s s.position = '.')
    (h9 : ¬char_at s s.position = '(') (h10 : ¬char_at s s.position = ')')
    (h11 : ¬char_at s s.position = '[') (h12 : ¬char_at s s.position = ']')
    (h13 : ¬char_at s s.position = '\x7b') (h14 : ¬char_at s s.position = '\x7d') :
    py_scan_step s = Except.ok (read_operator s) := by
  simp only [py_scan_step]
  rw [if_neg h1, if_neg h2, if_neg h3, if_neg h4, if_neg h5, if_neg h6, if_neg h7, if_neg h8,
    if_neg h9, if_neg h10, if_neg h11, if_neg h12, if_neg h13, if_neg h14]

lemma py_alpha_or_underscore_ident {c : Char} (h : py_isalpha c = true ∨ c = '_') :
    py_is_ident_char c = true := by
  rcases h with h | h
  · simp [py_is_ident_char, py_isalnum, h]
  · simp [py_is_ident_char, h]

lemma py_scan_step_ok_shape (s : Lexer) (h : s.position < s.source.length) (s2 : Lexer)
    (heq : py_scan_step s = Except.ok s2) :
    s2.source = s.source ∧
    s2.indent_stack = s.indent_stack ∧
    s.position < s2.position ∧
    ∃ ext, s2.tokens = s.tokens ++ ext ∧
      ∀ t ∈ ext, t.type ≠ TokenType.EOF ∧ t.type ≠ TokenType.INDENT ∧
        t.type ≠ TokenType.DEDENT := by
  by_cases c1 : char_at s s.position = '\n'
  · rw [py_scan_step_eq_newline s c1] at heq
    have h2 := Except.ok.inj heq
    subst h2
    exact ⟨rfl, rfl, Nat.lt_succ_self _, _, rfl, by simp⟩
  by_cases c2 : py_isdigit (char_at s s.position) = true
  · rw [py_scan_step_eq_number s c1 c2] at heq
    by_cases hdot : s.position + ((s.source.drop s.position).takeWhile py_isdigit).length
        < s.source.length ∧
      char_at s (s.position + ((s.source.drop s.position).takeWhile py_isdigit).length) = '.'
    · by_cases hdec : ((s.source.drop s.position).takeWhile py_isdigit) ≠ [] ∧
          ((s.source.drop s.position).takeWhile py_isdigit).all Char.isDigit ∧
          ((s.source.drop (s.position + ((s.source.drop s.position).takeWhile
            py_isdigit).length + 1)).takeWhile py_isdigit).all Char.isDigit
      · rw [py_read_number_eq_float_ok s _ _ rfl hdot.1 hdot.2 rfl hdec] at heq
        have h2 := Except.ok.inj heq
        subst h2
        refine ⟨rfl, rfl, ?_, _, rfl, by simp⟩
        show s.position < s.position + _ + 1 + _
        omega
      · rw [py_read_number_eq_float_err s _ _ rfl hdot.1 hdot.2 rfl hdec] at heq
        exact Except.noConfusion heq
    · by_cases hdec : ((s.source.drop s.position).takeWhile py_isdigit) ≠ [] ∧
          ((s.source.drop s.position).takeWhile py_isdigit).all Char.isDigit
      · rw [py_read_number_eq_int_ok s _ rfl hdot hdec] at heq
        have h2 := Except.ok.inj heq
        subst h2
        refine ⟨rfl, rfl, ?_, _, rfl, by simp⟩
        have hge := takeWhile_head_ge_one s h c2
        show s.position <
          s.position + ((s.source.drop s.position).takeWhile py_isdigit).length
        omega
      · rw [py_read_number_eq_int_err s _ rfl hdot hdec] at heq
        exact Except.noConfusion heq
  by_cases c3 : py_isalpha (char_at s s.position) = true ∨ char_at s s.position = '_'
  · rw [py_scan_step_eq_ident s c1 c2 c3] at heq
    have h2 := Except.ok.inj heq
    subst h2
    rw [py_read_identifier_eq s]
    refine ⟨rfl, rfl, ?_, _, rfl, ?_⟩
    · have hge := takeWhile_head_ge_one s h (py_alpha_or_underscore_ident c3)
      show s.position <
        s.position + ((s.source.drop s.position).takeWhile py_is_ident_char).length
      omega
    · intro t ht
      rw [List.mem_singleton] at ht
      subst ht
      exact keywords_lookup_types _
  by_cases c4 : char_at s s.position = '"' ∨ char_at s s.position = '\x27'
  · rw [py_scan_step_eq_string s c1 c2 c3 c4] at heq
    have h2 := Except.ok.inj heq
    subst h2
    obtain ⟨k, hk1, hk⟩ := read_string_eq s (char_at s s.position)
    rw [hk]
    refine ⟨rfl, rfl, ?_, _, rfl, by simp⟩
    show s.position < s.position + k
    omega
  by_cases c5 : char_at s s.position = ':'
  · rw [py_scan_step_eq_colon s c5] at heq
    have h2 := Except.ok.inj heq
    subst h2
    exact punct1_shape s _ _ ⟨by decide, by decide, by decide⟩
  by_cases c6 : char_at s s.position = ';'
  · rw [py_scan_step_eq_semicolon s c6] at heq
    have h2 := Except.ok.inj heq
    subst h2
    exact punct1_shape s _ _ ⟨by decide, by decide, by decide⟩
  by_cases c7 : char_at s s.position = ','
  · rw [py_scan_step_eq_comma s c7] at heq
    have h2 := Except.ok.inj heq
    subst h2
    exact punct1_shape s _ _ ⟨by decide, by decide, by decide⟩
  by_cases c8 : char_at s s.position = '.'
  · rw [py_scan_step_eq_dot s c8] at heq
    have h2 := Except.ok.inj heq
    subst h2
    exact punct1_shape s _ _ ⟨by decide, by decide, by decide⟩
  by_cases c9 : char_at s s.position = '('
  · rw [py_scan_step_eq_lparen s c9] at heq
    have h2 := Except.ok.inj heq
    subst h2
    exact punct1_shape s _ _ ⟨by decide, by decide, by decide⟩
  by_cases c10 : char_at s s.position = ')'
  · rw [py_scan_step_eq_rparen s c10] at heq
    have h2 := Except.ok.inj heq
    subst h2
    exact punct1_shape s _ _ ⟨by decide, by decide, by decide⟩
  by_cases c11 : char_at s s.position = '['
  · rw [py_scan_step_eq_lbracket s c11] at heq
    have h2 := Except.ok.inj heq
    subst h2
    exact punct1_shape s _ _ ⟨by decide, by decide, by decide⟩
  by_cases c12 : char_at s s.position = ']'
  · rw [py_scan_step_eq_rbracket s c12] at heq
    have h2 := Except.ok.inj heq
    subst h2
    exact punct1_shape s _ _ ⟨by decide, by decide, by decide⟩
  by_cases c13 : char_at s s.position = '\x7b'
  · rw [py_scan_step_eq_lbrace s c13] at heq
    have h2 := Except.ok.inj heq
    subst h2
    exact punct1_shape s _ _ ⟨by decide, by decide, by decide⟩
  by_cases c14 : char_at s s.position = '\x7d'
  · rw [py_scan_step_eq_rbrace s c14] at heq
    have h2 := Except.ok.inj heq
    subst h2
    exact punct1_shape s _ _ ⟨by decide, by decide, by decide⟩
  rw [py_scan_step_eq_operator s c1 c2 c3 c4 c5 c6 c7 c8 c9 c10 c11 c12 c13 c14] at heq
  have h2 := Except.ok.inj heq
  subst h2
  obtain ⟨n, hn1, hn2, hsrc, hpos, hline, hcol, hind, hor⟩ := read_operator_shape s
  refine ⟨hsrc, hind, by rw [hpos]; omega, ?_⟩
  rcases hor with ⟨ht, hw⟩ | ⟨t, ht, hw, hl, hc, hmem⟩
  · exact ⟨[], by rw [ht, List.append_nil], by simp⟩
  · refine ⟨[t], by rw [ht], ?_⟩
    intro x hx
    rw [List.mem_singleton] at hx
    subst hx
    exact op15_ne _ hmem

lemma py_main_loop_stop (f : Nat) (s : Lexer) (h : ¬s.position < s.source.length) :
    py_main_loop f s = Except.ok s := by
  cases f with
  | zero => rfl
  | succ f => rw [py_main_loop, if_neg h]

lemma py_main_loop_ok_shape (f : Nat) : ∀ s s2 : Lexer, py_main_loop f s = Except.ok s2 →
    s2.source = s.source ∧
    s2.indent_stack = s.indent_stack ∧
    s.position ≤ s2.position ∧
    ∃ ext, s2.tokens = s.tokens ++ ext ∧
      ∀ t ∈ ext, t.type ≠ TokenType.EOF ∧ t.type ≠ TokenType.INDENT ∧
        t.type ≠ TokenType.DEDENT := by
  induction f with
  | zero =>
    intro s s2 heq
    have h2 := Except.ok.inj heq
    subst h2
    exact ⟨rfl, rfl, Nat.le_refl _, [], (List.append_nil _).symm, by simp⟩
  | succ f ih =>
    intro s s2 heq
    simp only [py_main_loop] at heq
    by_cases h : s.position < s.source.length
    · rw [if_pos h] at heq
      obtain ⟨k, j, hjk, hskip⟩ := skip_ws_shape s
      by_cases h1 : (skip_whitespace_and_comments s).position
          < (skip_whitespace_and_comments s).source.length
      · rw [if_pos h1] at heq
        cases hstep : py_scan_step (skip_whitespace_and_comments s) with
        | error e => rw [hstep] at heq; exact Except.noConfusion heq
        | ok sm =>
          rw [hstep] at heq
          obtain ⟨hs2, hi2, hp2, ext2, ht2, hprop2⟩ :=
            py_scan_step_ok_shape _ h1 sm hstep
          obtain ⟨hs3, hi3, hp3, ext3, ht3, hprop3⟩ := ih sm s2 heq
          have ha : (skip_whitespace_and_comments s).position = s.position + k := by rw [hskip]
          refine ⟨?_, ?_, ?_, ext2 ++ ext3, ?_, ?_⟩
          · rw [hs3, hs2, hskip]
          · rw [hi3, hi2, hskip]
          · omega
          · rw [ht3, ht2, hskip]
            dsimp only
            rw [List.append_assoc]
          · intro t ht
            rcases List.mem_append.mp ht with hm | hm
            · exact hprop2 t hm
            · exact hprop3 t hm
      · rw [if_neg h1] at heq
        have h2 := Except.ok.inj heq
        subst h2
        refine ⟨by rw [hskip], by rw [hskip], ?_, [], by rw [hskip]; simp, by simp⟩
        rw [hskip]
        show s.position ≤ s.position + k
        omega
    · rw [if_neg h] at heq
      have h2 := Except.ok.inj heq
      subst h2
      exact ⟨rfl, rfl, Nat.le_refl _, [], (List.append_nil _).symm, by simp⟩

lemma py_main_loop_fuel (f : Nat) : ∀ (g : Nat) (s : Lexer),
    s.source.length ≤ s.position + f → s.source.length ≤ s.position + g →
    py_main_loop f s = py_main_loop g s := by
  induction f with
  | zero =>
    intro g s hf hg
    have h : ¬s.position < s.source.length := by omega
    rw [py_main_loop_stop _ _ h, py_main_loop_stop _ _ h]
  | succ f ih =>
    intro g s hf hg
    by_cases h : s.position < s.source.length
    · cases g with
      | zero => omega
      | succ g =>
        simp only [py_main_loop]
        rw [if_pos h, if_pos h]
        by_cases h1 : (skip_whitespace_and_comments s).position
            < (skip_whitespace_and_comments s).source.length
        · rw [if_pos h1, if_pos h1]
          cases hstep : py_scan_step (skip_whitespace_and_comments s) with
          | error e => rfl
          | ok sm =>
            obtain ⟨hs2, hi2, hp2, ext2, ht2, hprop2⟩ :=
              py_scan_step_ok_shape _ h1 sm hstep
            obtain ⟨k, j, hjk, hskip⟩ := skip_ws_shape s
            have e1 : sm.source = s.source := by
              rw [hs2, hskip]
            have e2 : (skip_whitespace_and_comments s).position = s.position + k := by
              rw [hskip]
            apply ih
            · rw [e1]
              omega
            · rw [e1]
              omega
        · rw [if_neg h1, if_neg h1]
    · rw [py_main_loop_stop _ _ h, py_main_loop_stop _ _ h]

lemma py_tokenize_ok_form (source : List Char) (ts : List Token)
    (h : py_tokenize source = Except.ok ts) :
    ∃ ext l c, ts =
      ext ++ [{ type := TokenType.EOF, value := TokValue.none, line := l, column := c }] ∧
      ∀ t ∈ ext, t.type ≠ TokenType.EOF ∧ t.type ≠ TokenType.INDENT ∧
        t.type ≠ TokenType.DEDENT := by
  rw [py_tokenize] at h
  cases hml : py_main_loop (source.length + 1) (initLexer source) with
  | error e => rw [hml] at h; exact Except.noConfusion h
  | ok sfin =>
    rw [hml] at h
    have h2 := Except.ok.inj h
    obtain ⟨hs, hi, hp, ext, htok, hprop⟩ :=
      py_main_loop_ok_shape (source.length + 1) (initLexer source) sfin hml
    refine ⟨ext, sfin.line, sfin.column, ?_, hprop⟩
    rw [← h2, add_token_eq]
    dsimp only
    rw [htok]
    simp [initLexer]

/-! ## Agreement of the two embeddings on ASCII sources

On code points below 0x80 the Latin-1 character classes coincide with the
ASCII ones, every digit-class run is a decimal run, and `int()`/`float()`
never raise, so on an all-ASCII source the fallible scanner returns exactly
the token list of `tokenize`. -/

lemma py_isdigit_ascii {c : Char} (h : c.toNat < 128) : py_isdigit c = c.isDigit := by
  have h1 : ¬(c = '¹') := by intro he; subst he; exact absurd h (by decide)
  have h2 : ¬(c = '²') := by intro he; subst he; exact absurd h (by decide)
  have h3 : ¬(c = '³') := by intro he; subst he; exact absurd h (by decide)
  simp [py_isdigit, h1, h2, h3]

lemma not_le_of_ascii {c d : Char} (h : c.toNat < 128) (hd : 128 ≤ d.toNat) : ¬(d ≤ c) := by
  intro hle
  rw [Char.le_def] at hle
  have h2 : d.toNat ≤ c.toNat := hle
  omega

lemma py_isalpha_ascii {c : Char} (h : c.toNat < 128) : py_isalpha c = c.isAlpha := by
  have h1 : ¬(c = 'ª') := by intro he; subst he; exact absurd h (by decide)
  have h2 : ¬(c = 'µ') := by intro he; subst he; exact absurd h (by decide)
  have h3 : ¬(c = 'º') := by intro he; subst he; exact absurd h (by decide)
  have h4 : ¬('À' ≤ c) := not_le_of_ascii h (by decide)
  have h5 : ¬('Ø' ≤ c) := not_le_of_ascii h (by decide)
  have h6 : ¬('ø' ≤ c) := not_le_of_ascii h (by decide)
  simp [py_isalpha, h1, h2, h3, h4, h5, h6]

lemma py_isalnum_ascii {c : Char} (h : c.toNat < 128) : py_isalnum c = c.isAlphanum := by
  have h1 : ¬(c = '¼') := by intro he; subst he; exact absurd h (by decide)
  have h2 : ¬(c = '½') := by intro he; subst he; exact absurd h (by decide)
  have h3 : ¬(c = '¾') := by intro he; subst he; exact absurd h (by decide)
  rw [py_isalnum, py_isalpha_ascii h, py_isdigit_ascii h]
  simp [Char.isAlphanum, h1, h2, h3]

lemma py_is_ident_char_ascii {c : Char} (h : c.toNat < 128) :
    py_is_ident_char c = is_ident_char c := by
  rw [py_is_ident_char, is_ident_char, py_isalnum_ascii h]

lemma ascii_char_at (s : Lexer) (hA : ∀ c ∈ s.source, c.toNat < 128) (p : Nat) :
    (char_at s p).toNat < 128 := by
  by_cases h : p < s.source.length
  · refine hA _ ?_
    rw [char_at, List.getD_eq_getElem s.source '\x00' h]
    exact List.getElem_mem h
  · rw [char_at, List.getD_eq_default s.source '\x00' (by omega)]
    decide

lemma takeWhile_congr_mem {p q : Char → Bool} :
    ∀ l : List Char, (∀ c ∈ l, p c = q c) → l.takeWhile p = l.takeWhile q := by
  intro l
  induction l with
  | nil => intro _; rfl
  | cons c cs ih =>
    intro h
    rw [List.takeWhile_cons, List.takeWhile_cons, h c (List.mem_cons_self c cs)]
    by_cases hq : q c = true
    · rw [if_pos hq, if_pos hq, ih (fun x hx => h x (List.mem_cons_of_mem c hx))]
    · rw [if_neg hq, if_neg hq]

lemma takeWhile_all_self (p : Char → Bool) (l : List Char) : (l.takeWhile p).all p = true := by
  rw [List.all_eq_true]
  intro x hx
  exact List.mem_takeWhile_imp hx

lemma py_read_number_ascii (s : Lexer) (hA : ∀ c ∈ s.source, c.toNat < 128)
    (hpos : s.position < s.source.length)
    (hdig : (char_at s s.position).isDigit = true) :
    py_read_number s = Except.ok (read_number s) := by
  have hdrop : ∀ n : Nat, (s.source.drop n).takeWhile py_isdigit
      = (s.source.drop n).takeWhile Char.isDigit := fun n =>
    takeWhile_congr_mem _ (fun c hc => py_isdigit_ascii (hA c (List.mem_of_mem_drop hc)))
  have hne : (s.source.drop s.position).takeWhile Char.isDigit ≠ [] := by
    have h1 := takeWhile_head_ge_one s hpos hdig
    exact List.ne_nil_of_length_pos (by omega)
  by_cases hdot : s.position + ((s.source.drop s.position).takeWhile Char.isDigit).length
        < s.source.length ∧
      char_at s (s.position + ((s.source.drop s.position).takeWhile Char.isDigit).length) = '.'
  · rw [py_read_number_eq_float_ok s _ _ (hdrop s.position).symm hdot.1 hdot.2
        (hdrop _).symm ⟨hne, takeWhile_all_self _ _, takeWhile_all_self _ _⟩,
      read_number_eq_float s _ _ rfl hdot.1 hdot.2 rfl]
  · rw [py_read_number_eq_int_ok s _ (hdrop s.position).symm hdot
        ⟨hne, takeWhile_all_self _ _⟩,
      read_number_eq_int s _ rfl hdot]

lemma py_read_identifier_ascii (s : Lexer) (hA : ∀ c ∈ s.source, c.toNat < 128) :
    py_read_identifier s = read_identifier s := by
  have ht : (s.source.drop s.position).takeWhile py_is_ident_char
      = (s.source.drop s.position).takeWhile is_ident_char :=
    takeWhile_congr_mem _
      (fun c hc => py_is_ident_char_ascii (hA c (List.mem_of_mem_drop hc)))
  rw [py_read_identifier_eq, read_identifier_eq, ht]

lemma py_scan_step_ascii (s : Lexer) (hA : ∀ c ∈ s.source, c.toNat < 128) :
    py_scan_step s = Except.ok (scan_step s) := by
  have hc : (char_at s s.position).toNat < 128 := ascii_char_at s hA s.position
  by_cases c1 : char_at s s.position = '\n'
  · rw [py_scan_step_eq_newline s c1, scan_step_eq_newline s c1]
  by_cases c2 : (char_at s s.position).isDigit = true
  · have c2a : py_isdigit (char_at s s.position) = true := by
      rw [py_isdigit_ascii hc]; exact c2
    have hpos : s.position < s.source.length := by
      by_contra hge
      have hz : char_at s s.position = '\x00' := by
        rw [char_at, List.getD_eq_default s.source '\x00' (by omega)]
      rw [hz] at c2
      exact absurd c2 (by decide)
    rw [py_scan_step_eq_number s c1 c2a, scan_step_eq_number s c1 c2,
      py_read_number_ascii s hA hpos c2]
  have c2a : ¬py_isdigit (char_at s s.position) = true := by
    rw [py_isdigit_ascii hc]; exact c2
  by_cases c3 : (char_at s s.position).isAlpha = true ∨ char_at s s.position = '_'
  · have c3a : py_isalpha (char_at s s.position) = true ∨ char_at s s.position = '_' := by
      rw [py_isalpha_ascii hc]; exact c3
    rw [py_scan_step_eq_ident s c1 c2a c3a, scan_step_eq_ident s c1 c2 c3,
      py_read_identifier_ascii s hA]
  have c3a : ¬(py_isalpha (char_at s s.position) = true ∨ char_at s s.position = '_') := by
    rw [py_isalpha_ascii hc]; exact c3
  by_cases c4 : char_at s s.position = '"' ∨ char_at s s.position = '\x27'
  · rw [py_scan_step_eq_string s c1 c2a c3a c4, scan_step_eq_string s c1 c2 c3 c4]
  by_cases c5 : char_at s s.position = ':'
  · rw [py_scan_step_eq_colon s c5, scan_step_eq_colon s c5]
  by_cases c6 : char_at s s.position = ';'
  · rw [py_scan_step_eq_semicolon s c6, scan_step_eq_semicolon s c6]
  by_cases c7 : char_at s s.position = ','
  · rw [py_scan_step_eq_comma s c7, scan_step_eq_comma s c7]
  by_cases c8 : char_at s s.position = '.'
  · rw [py_scan_step_eq_dot s c8, scan_step_eq_dot s c8]
  by_cases c9 : char_at s s.position = '('
  · rw [py_scan_step_eq_lparen s c9, scan_step_eq_lparen s c9]
  by_cases c10 : char_at s s.position = ')'
  · rw [py_scan_step_eq_rparen s c10, scan_step_eq_rparen s c10]
  by_cases c11 : char_at s s.position = '['
  · rw [py_scan_step_eq_lbracket s c11, scan_step_eq_lbracket s c11]
  by_cases c12 : char_at s s.position = ']'
  · rw [py_scan_step_eq_rbracket s c12, scan_step_eq_rbracket s c12]
  by_cases c13 : char_at s s.position = '\x7b'
  · rw [py_scan_step_eq_lbrace s c13, scan_step_eq_lbrace s c13]
  by_cases c14 : char_at s s.position = '\x7d'
  · rw [py_scan_step_eq_rbrace s c14, scan_step_eq_rbrace s c14]
  rw [py_scan_step_eq_operator s c1 c2a c3a c4 c5 c6 c7 c8 c9 c10 c11 c12 c13 c14,
    scan_step_eq_operator s c1 c2 c3 c4 c5 c6 c7 c8 c9 c10 c11 c12 c13 c14]

lemma py_main_loop_ascii (f : Nat) : ∀ s : Lexer, (∀ c ∈ s.source, c.toNat < 128) →
    py_main_loop f s = Except.ok (main_loop f s) := by
  induction f with
  | zero => intro s hA; rfl
  | succ f ih =>
    intro s hA
    simp only [py_main_loop, main_loop]
    by_cases h : s.position < s.source.length
    · rw [if_pos h, if_pos h]
      by_cases h1 : (skip_whitespace_and_comments s).position
          < (skip_whitespace_and_comments s).source.length
      · rw [if_pos h1, if_pos h1]
        obtain ⟨k, j, hjk, hskip⟩ := skip_ws_shape s
        have hA1 : ∀ c ∈ (skip_whitespace_and_comments s).source, c.toNat < 128 := by
          rw [hskip]; exact hA
        rw [py_scan_step_ascii _ hA1]
        have hA2 : ∀ c ∈ (scan_step (skip_whitespace_and_comments s)).source,
            c.toNat < 128 := by
          obtain ⟨hs, _, _, _⟩ := scan_step_shape _ h1
          rw [hs, hskip]; exact hA
        exact ih _ hA2
      · rw [if_neg h1, if_neg h1]
    · rw [if_neg h, if_neg h]

lemma tokenize_agrees_on_ascii (source : List Char)
    (hA : ∀ c ∈ source, c.toNat < 128) :
    py_tokenize source = Except.ok (tokenize source) := by
  rw [py_tokenize, py_main_loop_ascii _ (initLexer source) (fun c hc => hA c hc)]
  rfl

/-! ## Claim theorems -/

/-- C1: the claim says `tokenize` always terminates and returns a token
sequence whose last element is a unique EndOfInput token — but the faithful
scanner refutes the "always returns" part: on the input `"²"` (a character
Python's `str.isdigit` accepts but `int()` rejects) the number reader's
`int()` call at lexer.py line 223 raises `ValueError`, tokenization aborts,
and no sequence is returned at all (first conjunct).  Whenever tokenization
*does* return — any input on which no `int()`/`float()` call raises — the
returned sequence does end in a single EOF token with absent value (second
conjunct); the scan loop is a fixed point at fuel `length + 1`, i.e. the
`while` loop terminates within `length` iterations (third conjunct); and on
all-ASCII input the scanner always returns, agreeing with the total ASCII
model (fourth conjunct). -/
theorem py_tokenize_valueerror_or_eof :
    py_tokenize ['²'] = Except.error ['²'] ∧
    (∀ (source : List Char) (ts : List Token), py_tokenize source = Except.ok ts →
      (∃ l c, ts.getLast? =
        some { type := TokenType.EOF, value := TokValue.none, line := l, column := c }) ∧
      ts.countP (fun t => decide (t.type = TokenType.EOF)) = 1) ∧
    (∀ (source : List Char) (k : Nat),
      py_main_loop (source.length + 1 + k) (initLexer source) =
        py_main_loop (source.length + 1) (initLexer source)) ∧
    (∀ source : List Char, (∀ c ∈ source, c.toNat < 128) →
      py_tokenize source = Except.ok (tokenize source)) := by
  refine ⟨by decide, ?_, ?_, ?_⟩
  · intro source ts h
    obtain ⟨ext, l, c, hform, hprop⟩ := py_tokenize_ok_form source ts h
    refine ⟨⟨l, c, by rw [hform, List.getLast?_concat]⟩, ?_⟩
    rw [hform, List.countP_append]
    have h0 : ext.countP (fun t => decide (t.type = TokenType.EOF)) = 0 :=
      List.countP_eq_zero.mpr (fun a ha => by simp [(hprop a ha).1])
    rw [h0]
    simp
  · intro source k
    apply py_main_loop_fuel
    · show source.length ≤ 0 + (source.length + 1 + k)
      omega
    · show source.length ≤ 0 + (source.length + 1)
      omega
  · exact tokenize_agrees_on_ascii

/-- Witness for C1: the ok-case conjunct applied to the empty source, whose
returned sequence is the single EOF token. -/
theorem py_tokenize_valueerror_or_eof_witness :
    (∃ l c, ([{ type := TokenType.EOF, value := TokValue.none, line := 1, column := 1 }] :
        List Token).getLast? =
      some { type := TokenType.EOF, value := TokValue.none, line := l, column := c }) ∧
    ([{ type := TokenType.EOF, value := TokValue.none, line := 1, column := 1 }] :
        List Token).countP (fun t => decide (t.type = TokenType.EOF)) = 1 :=
  py_tokenize_valueerror_or_eof.2.1 []
    [{ type := TokenType.EOF, value := TokValue.none, line := 1, column := 1 }] (by decide)

/-- C10: the indentation stack stays `[0]` for the whole run of `tokenize`:
no helper of the scanner ever touches `indent_stack` (whitespace skipping,
the dispatch loop and `_add_token` all preserve it), the final state's stack
is still the initial `[0]`, and the output never contains an INDENT or
DEDENT token. -/
theorem indent_stack_constant_no_indent_tokens :
    (∀ (f : Nat) (s : Lexer), (main_loop f s).indent_stack = s.indent_stack) ∧
    (∀ s : Lexer, (skip_whitespace_and_comments s).indent_stack = s.indent_stack) ∧
    (∀ (s : Lexer) (ty : TokenType) (v : TokValue),
      (add_token s ty v).indent_stack = s.indent_stack) ∧
    (∀ source : List Char, (tokenize_final source).indent_stack = [0]) ∧
    (∀ source : List Char,
      (tokenize source).countP
        (fun t => decide (t.type = TokenType.INDENT ∨ t.type = TokenType.DEDENT)) = 0) := by
  refine ⟨?_, ?_, ?_, ?_, ?_⟩
  · intro f s
    exact (main_loop_shape f s).2.1
  · intro s
    obtain ⟨k, j, hjk, hskip⟩ := skip_ws_shape s
    rw [hskip]
  · intro s ty v
    rfl
  · intro source
    rw [tokenize_final, add_token_eq]
    show (main_loop (source.length + 1) (initLexer source)).indent_stack = [0]
    rw [(main_loop_shape _ _).2.1]
    rfl
  · intro source
    obtain ⟨ext, l, c, hform, hprop⟩ := tokenize_form source
    rw [hform, List.countP_append]
    have h0 : ext.countP
        (fun t => decide (t.type = TokenType.INDENT ∨ t.type = TokenType.DEDENT)) = 0 :=
      List.countP_eq_zero.mpr (fun a ha => by simp [(hprop a ha).2.1, (hprop a ha).2.2])
    rw [h0]
    simp

/-- C2 (counterexample): the claim says every emitted token records the
cursor position *after* its lexeme has been consumed, never the position at
the start.  On input `":"` the COLON token records column 1 — the position
at the *start* of the lexeme — while the cursor position after consuming
the lexeme is column 2 (as recorded by the EOF token emitted at that
cursor); 1 ≠ 2, so the claim fails for punctuation tokens. -/
theorem trailing_position_counterexample :
    tokenize [':'] =
      [{ type := TokenType.COLON, value := TokValue.str [':'], line := 1, column := 1 },
       { type := TokenType.EOF, value := TokValue.none, line := 1, column := 2 }] ∧
    (tokenize_final [':']).column = 2 ∧ (1 : Nat) ≠ 2 := by
  refine ⟨by decide, by decide, by decide⟩

/-- C2 (amended): every token records whatever line/column the cursor holds
at the moment `_add_token` runs (last conjunct), but that moment differs by
token kind: the literal readers (number, identifier, string) advance the
cursor past the lexeme before calling `_add_token`, so their tokens carry
the trailing position (first three conjuncts); the punctuation/delimiter
branches and the operator reader call `_add_token` *before* advancing the
cursor, so their tokens carry the position at the start of the lexeme while
the cursor moves past it only afterwards (conjuncts four and five). -/
theorem token_positions_amended :
    (∀ s : Lexer, ∃ t, (read_number s).tokens = s.tokens ++ [t] ∧
      t.line = (read_number s).line ∧ t.column = (read_number s).column) ∧
    (∀ s : Lexer, ∃ t, (read_identifier s).tokens = s.tokens ++ [t] ∧
      t.line = (read_identifier s).line ∧ t.column = (read_identifier s).column) ∧
    (∀ (s : Lexer) (q : Char), ∃ t, (read_string s q).tokens = s.tokens ++ [t] ∧
      t.line = (read_string s q).line ∧ t.column = (read_string s q).column) ∧
    (∀ (s : Lexer) (ty : TokenType) (c : Char),
      (punct1 s ty c).tokens = s.tokens ++
        [{ type := ty, value := TokValue.str [c], line := s.line, column := s.column }] ∧
      (punct1 s ty c).column = s.column + 1 ∧ (punct1 s ty c).line = s.line) ∧
    (∀ s : Lexer,
      ((read_operator s).tokens = s.tokens ∨
        ∃ t, (read_operator s).tokens = s.tokens ++ [t] ∧
          t.line = s.line ∧ t.column = s.column) ∧
      s.column < (read_operator s).column) ∧
    (∀ (s : Lexer) (ty : TokenType) (v : TokValue),
      (add_token s ty v).tokens = s.tokens ++
        [{ type := ty, value := v, line := s.line, column := s.column }]) := by
  refine ⟨?_, ?_, ?_, ?_, ?_, ?_⟩
  · intro s
    by_cases hdot : s.position + ((s.source.drop s.position).takeWhile Char.isDigit).length
        < s.source.length ∧
      char_at s (s.position + ((s.source.drop s.position).takeWhile Char.isDigit).length) = '.'
    · rw [read_number_eq_float s _ _ rfl hdot.1 hdot.2 rfl]
      exact ⟨_, rfl, rfl, rfl⟩
    · rw [read_number_eq_int s _ rfl hdot]
      exact ⟨_, rfl, rfl, rfl⟩
  · intro s
    rw [read_identifier_eq s]
    exact ⟨_, rfl, rfl, rfl⟩
  · intro s q
    obtain ⟨k, hk1, hk⟩ := read_string_eq s q
    rw [hk]
    exact ⟨_, rfl, rfl, rfl⟩
  · intro s ty c
    rw [punct1_eq]
    exact ⟨rfl, rfl, rfl⟩
  · intro s
    obtain ⟨n, hn1, hn2, hsrc, hpos, hline, hcol, hind, hor⟩ := read_operator_shape s
    refine ⟨?_, by rw [hcol]; omega⟩
    rcases hor with ⟨ht, hw⟩ | ⟨t, ht, hw, hl, hc, hmem⟩
    · exact Or.inl ht
    · exact Or.inr ⟨t, ht, hl, hc⟩
  · intro s ty v
    rfl

/-- C3 (counterexample): the claim says the Newline token's line field
equals the line counter *after* the increment (the line following the
newline).  On input `"\n"` the counter after the increment is 2 (the EOF
token shows it), but the Newline token's line field is 1 — the code stores
`self.line - 1` after incrementing, i.e. the line the newline ended; 1 ≠ 2,
so the claim's line part is false.  The column part (reset value 1) does
hold. -/
theorem newline_token_line_counterexample :
    tokenize ['\n'] =
      [{ type := TokenType.NEWLINE, value := TokValue.str ['\n'], line := 1, column := 1 },
       { type := TokenType.EOF, value := TokValue.none, line := 2, column := 1 }] ∧
    (tokenize_final ['\n']).line = 2 ∧ (1 : Nat) ≠ 2 := by
  refine ⟨by decide, by decide, by decide⟩

/-- C3 (amended): for every newline character scanned by the main loop, the
cursor first advances (line incremented, column reset to 1) and the emitted
Newline token records the *reset column* 1 but the line counter after the
increment *minus one* — that is, the line on which the newline occurred,
not the line following it. -/
theorem newline_token_records_line_before_increment (s : Lexer)
    (h : char_at s s.position = '\n') :
    scan_step s =
      { s with
        position := s.position + 1,
        line := s.line + 1,
        column := 1,
        tokens := s.tokens ++
          [{ type := TokenType.NEWLINE, value := TokValue.str ['\n'],
             line := s.line, column := 1 }] } ∧
    s.line = s.line + 1 - 1 := by
  refine ⟨?_, by omega⟩
  rw [scan_step_eq_newline s h, Nat.add_sub_cancel]

/-- Witness for the amended C3 theorem at the concrete input `"\n"`. -/
theorem newline_token_records_line_before_increment_witness :
    scan_step (initLexer ['\n']) =
      { source := ['\n'], position := 1, line := 2, column := 1,
        tokens := [{ type := TokenType.NEWLINE, value := TokValue.str ['\n'],
                     line := 1, column := 1 }],
        indent_stack := [0], warnings := [] } :=
  ((newline_token_records_line_before_increment (initLexer ['\n']) (by decide)).1).trans
    (by decide)

/-- C4 (counterexample): the claim says that on *every* code path —
including comment skipping — the column counter equals 1 plus the number of
characters consumed since the most recent newline, and the line counter
equals 1 plus the number of newlines consumed.  Both parts fail.  Skipping
the comment `"#ab"` consumes 3 characters but leaves `column = 1` (the
comment loop advances `position` without touching `column`), whereas the
claim demands column 4.  Reading the string literal `'a<newline>b'`
consumes a newline character but leaves `line = 1` (the string loop never
increments `line`), whereas the claim demands line 2. -/
theorem position_invariant_counterexample :
    skip_whitespace_and_comments (initLexer ['#', 'a', 'b']) =
      { source := ['#', 'a', 'b'], position := 3, line := 1, column := 1,
        tokens := [], indent_stack := [0], warnings := [] } ∧
    (1 : Nat) ≠ 4 ∧
    (read_string (initLexer ['\x27', 'a', '\n', 'b', '\x27']) '\x27').position = 5 ∧
    (read_string (initLexer ['\x27', 'a', '\n', 'b', '\x27']) '\x27').line = 1 ∧
    (1 : Nat) ≠ 2 := by
  refine ⟨by decide, by decide, by decide, by decide, by decide⟩

/-- C4 (amended): position tracking, per code path.  Every character
consumed by the digit, identifier, string and operator readers and by the
punctuation branches advances `column` by exactly 1 and leaves `line`
unchanged — including newline characters consumed inside string literals,
which advance `column` like any other character and do *not* increment
`line`.  A newline consumed by the main loop increments `line` and resets
`column` to 1.  The exception is comment skipping: the comment loop
advances `position` without touching `column` or `line`, so during and
immediately after a comment the column counter does not reflect the
characters consumed (the whitespace loop as a whole advances `column` by at
most as much as `position`). -/
theorem position_tracking_amended :
    (∀ (f : Nat) (s : Lexer), ∃ k,
      skip_comment_loop f s = { s with position := s.position + k }) ∧
    (∀ (f : Nat) (s : Lexer), ∃ k j, j ≤ k ∧
      skip_ws_loop f s = { s with position := s.position + k, column := s.column + j }) ∧
    (∀ (f : Nat) (s : Lexer), ∃ k,
      digits_loop f s = { s with position := s.position + k, column := s.column + k }) ∧
    (∀ (f : Nat) (s : Lexer), ∃ k,
      ident_loop f s = { s with position := s.position + k, column := s.column + k }) ∧
    (∀ (q : Char) (f : Nat) (s : Lexer) (v : List Char), ∃ k w,
      string_loop q f s v =
        ({ s with position := s.position + k, column := s.column + k }, v ++ w)) ∧
    (∀ s : Lexer, ∃ k, 1 ≤ k ∧ k ≤ 2 ∧
      (read_operator s).position = s.position + k ∧
      (read_operator s).column = s.column + k ∧
      (read_operator s).line = s.line) ∧
    (∀ (s : Lexer) (ty : TokenType) (c : Char),
      (punct1 s ty c).position = s.position + 1 ∧
      (punct1 s ty c).column = s.column + 1 ∧
      (punct1 s ty c).line = s.line) ∧
    (∀ s : Lexer, char_at s s.position = '\n' →
      (scan_step s).position = s.position + 1 ∧
      (scan_step s).line = s.line + 1 ∧
      (scan_step s).column = 1) := by
  refine ⟨skip_comment_loop_shape, skip_ws_loop_shape, digits_loop_shape, ident_loop_shape,
    string_loop_shape, ?_, ?_, ?_⟩
  · intro s
    obtain ⟨n, hn1, hn2, hsrc, hpos, hline, hcol, hind, hor⟩ := read_operator_shape s
    exact ⟨n, hn1, hn2, hpos, hcol, hline⟩
  · intro s ty c
    rw [punct1_eq]
    exact ⟨rfl, rfl, rfl⟩
  · intro s h
    rw [scan_step_eq_newline s h]
    exact ⟨rfl, rfl, rfl⟩

/-- Witness for the amended C4 theorem: the newline conjunct (the only one
with a hypothesis) applied at the concrete input `"\n"`. -/
theorem position_tracking_amended_witness :
    (scan_step (initLexer ['\n'])).position = 0 + 1 ∧
    (scan_step (initLexer ['\n'])).line = 1 + 1 ∧
    (scan_step (initLexer ['\n'])).column = 1 :=
  position_tracking_amended.2.2.2.2.2.2.2 (initLexer ['\n']) (by decide)

/-- C5: the claim says the scanner recovers gracefully and raises no error
for every input.  The recovery half is true of unrecognized characters: a
character matched by no operator table produces no token, appends exactly
one warning diagnostic, and the cursor still advances by exactly one
position (first two conjuncts), so scanning continues — concretely `"@"`
still yields an EOF-terminated sequence with one recorded diagnostic (third
and fourth conjuncts).  But the raises-no-error half is false: on `"3.²"`
the digit-class munch hands `float()` the string `"3.²"`, whose parse
raises `ValueError` at lexer.py line 220, aborting tokenization with no
returned sequence (fifth conjunct). -/
theorem py_unrecognized_skip_but_number_abort :
    (∀ (s : Lexer) (c : Char), c ∉ ['+', '-', '*', '/', '%', '=', '<', '>', '|'] →
      read_operator_one s c =
        { s with
          position := s.position + 1,
          column := s.column + 1,
          warnings := s.warnings ++ [(c, s.line, s.column)] }) ∧
    (∀ s : Lexer, char_at s s.position ∉ ['+', '-', '*', '/', '%', '=', '<', '>', '|', '!'] →
      read_operator s =
        { s with
          position := s.position + 1,
          column := s.column + 1,
          warnings := s.warnings ++ [(char_at s s.position, s.line, s.column)] }) ∧
    py_tokenize ['@'] = Except.ok
      [{ type := TokenType.EOF, value := TokValue.none, line := 1, column := 2 }] ∧
    py_main_loop 2 (initLexer ['@']) = Except.ok
      { source := ['@'], position := 1, line := 1, column := 2, tokens := [],
        indent_stack := [0], warnings := [('@', 1, 1)] } ∧
    py_tokenize ['3', '.', '²'] = Except.error ['3', '.', '²'] := by
  have hsub : ∀ c : Char, c ∈ ['+', '-', '*', '/', '%', '=', '<', '>', '|'] →
      c ∈ ['+', '-', '*', '/', '%', '=', '<', '>', '|', '!'] := by
    intro c hm
    fin_cases hm <;> decide
  refine ⟨read_operator_one_unknown, ?_, by decide, by decide, by decide⟩
  intro s h
  by_cases hl : s.position + 1 < s.source.length
  · simp only [read_operator]
    rw [if_pos hl]
    have k1 : ¬(char_at s s.position = '=' ∧ char_at s (s.position + 1) = '=') :=
      fun hh => h (by rw [hh.1]; decide)
    have k2 : ¬(char_at s s.position = '!' ∧ char_at s (s.position + 1) = '=') :=
      fun hh => h (by rw [hh.1]; decide)
    have k3 : ¬(char_at s s.position = '<' ∧ char_at s (s.position + 1) = '=') :=
      fun hh => h (by rw [hh.1]; decide)
    have k4 : ¬(char_at s s.position = '>' ∧ char_at s (s.position + 1) = '=') :=
      fun hh => h (by rw [hh.1]; decide)
    have k5 : ¬(char_at s s.position = '-' ∧ char_at s (s.position + 1) = '>') :=
      fun hh => h (by rw [hh.1]; decide)
    have k6 : ¬(char_at s s.position = '*' ∧ char_at s (s.position + 1) = '*') :=
      fun hh => h (by rw [hh.1]; decide)
    have k7 : ¬(char_at s s.position = '|' ∧ char_at s (s.position + 1) = '>') :=
      fun hh => h (by rw [hh.1]; decide)
    rw [if_neg k1, if_neg k2, if_neg k3, if_neg k4, if_neg k5, if_neg k6, if_neg k7]
    exact read_operator_one_unknown s _ (fun hm => h (hsub _ hm))
  · simp only [read_operator]
    rw [if_neg hl]
    exact read_operator_one_unknown s _ (fun hm => h (hsub _ hm))

/-- Witness for C5 at the concrete input `"@"`: the unrecognized character
`@` is skipped with one warning and no token. -/
theorem py_unrecognized_skip_but_number_abort_witness :
    read_operator (initLexer ['@']) =
      { source := ['@'], position := 1, line := 1, column := 2, tokens := [],
        indent_stack := [0], warnings := [('@', 1, 1)] } :=
  (py_unrecognized_skip_but_number_abort.2.1 (initLexer ['@']) (by decide)).trans (by decide)

/-- C6: whenever the operator reader runs with at least two characters
remaining, each two-character operator `== != <= >= -> ** |>` is matched
before any one-character operator: the reader emits exactly one token for
the pair and advances the cursor by two (first seven conjuncts).  In
particular input `"->"` yields exactly one Arrow token — never Minus
followed by Gt — and `"=="` yields exactly one Eq token — never two Assign
tokens (last two conjuncts). -/
theorem two_char_operator_precedence :
    (∀ s : Lexer, s.position + 1 < s.source.length →
      char_at s s.position = '=' → char_at s (s.position + 1) = '=' →
      read_operator s = { s with
        position := s.position + 2,
        column := s.column + 2,
        tokens := s.tokens ++ [{ type := TokenType.EQ, value := TokValue.str ['=', '='],
                                 line := s.line, column := s.column }] }) ∧
    (∀ s : Lexer, s.position + 1 < s.source.length →
      char_at s s.position = '!' → char_at s (s.position + 1) = '=' →
      read_operator s = { s with
        position := s.position + 2,
        column := s.column + 2,
        tokens := s.tokens ++ [{ type := TokenType.NEQ, value := TokValue.str ['!', '='],
                                 line := s.line, column := s.column }] }) ∧
    (∀ s : Lexer, s.position + 1 < s.source.length →
      char_at s s.position = '<' → char_at s (s.position + 1) = '=' →
      read_operator s = { s with
        position := s.position + 2,
        column := s.column + 2,
        tokens := s.tokens ++ [{ type := TokenType.LE, value := TokValue.str ['<', '='],
                                 line := s.line, column := s.column }] }) ∧
    (∀ s : Lexer, s.position + 1 < s.source.length →
      char_at s s.position = '>' → char_at s (s.position + 1) = '=' →
      read_operator s = { s with
        position := s.position + 2,
        column := s.column + 2,
        tokens := s.tokens ++ [{ type := TokenType.GE, value := TokValue.str ['>', '='],
                                 line := s.line, column := s.column }] }) ∧
    (∀ s : Lexer, s.position + 1 < s.source.length →
      char_at s s.position = '-' → char_at s (s.position + 1) = '>' →
      read_operator s = { s with
        position := s.position + 2,
        column := s.column + 2,
        tokens := s.tokens ++ [{ type := TokenType.ARROW, value := TokValue.str ['-', '>'],
                                 line := s.line, column := s.column }] }) ∧
    (∀ s : Lexer, s.position + 1 < s.source.length →
      char_at s s.position = '*' → char_at s (s.position + 1) = '*' →
      read_operator s = { s with
        position := s.position + 2,
        column := s.column + 2,
        tokens := s.tokens ++ [{ type := TokenType.POW, value := TokValue.str ['*', '*'],
                                 line := s.line, column := s.column }] }) ∧
    (∀ s : Lexer, s.position + 1 < s.source.length →
      char_at s s.position = '|' → char_at s (s.position + 1) = '>' →
      read_operator s = { s with
        position := s.position + 2,
        column := s.column + 2,
        tokens := s.tokens ++ [{ type := TokenType.PIPE, value := TokValue.str ['|', '>'],
                                 line := s.line, column := s.column }] }) ∧
    tokenize ['-', '>'] =
      [{ type := TokenType.ARROW, value := TokValue.str ['-', '>'], line := 1, column := 1 },
       { type := TokenType.EOF, value := TokValue.none, line := 1, column := 3 }] ∧
    tokenize ['=', '='] =
      [{ type := TokenType.EQ, value := TokValue.str ['=', '='], line := 1, column := 1 },
       { type := TokenType.EOF, value := TokValue.none, line := 1, column := 3 }] := by
  refine ⟨?_, ?_, ?_, ?_, ?_, ?_, ?_, by decide, by decide⟩ <;>
    (intro s hl hc hc2
     simp only [read_operator, hc, hc2]
     rw [if_pos hl]
     simp [add_token])

/-- Witness for C6: the Arrow conjunct applied at the concrete state for
input `"->"`, yielding the single ARROW token. -/
theorem two_char_operator_precedence_witness :
    read_operator (initLexer ['-', '>']) =
      { source := ['-', '>'], position := 2, line := 1, column := 3,
        tokens := [{ type := TokenType.ARROW, value := TokValue.str ['-', '>'],
                     line := 1, column := 1 }],
        indent_stack := [0], warnings := [] } :=
  (two_char_operator_precedence.2.2.2.2.1 (initLexer ['-', '>'])
    (by decide) (by decide) (by decide)).trans (by decide)

/-- C7: every maximal identifier-shaped lexeme (maximal run of
alphanumeric, `_`, `?`, `!` characters) is classified through the
reserved-word table, with the raw text as value in all cases (first
conjunct, the exact closed form of `_read_identifier`).  `true` and `false`
map to BOOLEAN in the table (not to a generic keyword kind), `truee` is not
in the table, and concretely `"true"`/`"false"` each tokenize to exactly
one Boolean token carrying the raw text while the proper extension
`"truee"` tokenizes to a single Identifier token carrying the full text
(maximal munch, no partial keyword match). -/
theorem keyword_identifier_partition :
    (∀ s : Lexer, read_identifier s =
      { s with
        position := s.position + ((s.source.drop s.position).takeWhile is_ident_char).length,
        column := s.column + ((s.source.drop s.position).takeWhile is_ident_char).length,
        tokens := s.tokens ++
          [{ type := (KEYWORDS.lookup ((s.source.drop s.position).takeWhile
                is_ident_char)).getD TokenType.IDENTIFIER,
             value := TokValue.str ((s.source.drop s.position).takeWhile is_ident_char),
             line := s.line,
             column := s.column +
               ((s.source.drop s.position).takeWhile is_ident_char).length }] }) ∧
    KEYWORDS.lookup "true".toList = some TokenType.BOOLEAN ∧
    KEYWORDS.lookup "false".toList = some TokenType.BOOLEAN ∧
    KEYWORDS.lookup "truee".toList = Option.none ∧
    tokenize "true".toList =
      [{ type := TokenType.BOOLEAN, value := TokValue.str "true".toList, line := 1, column := 5 },
       { type := TokenType.EOF, value := TokValue.none, line := 1, column := 5 }] ∧
    tokenize "false".toList =
      [{ type := TokenType.BOOLEAN, value := TokValue.str "false".toList, line := 1, column := 6 },
       { type := TokenType.EOF, value := TokValue.none, line := 1, column := 6 }] ∧
    tokenize "truee".toList =
      [{ type := TokenType.IDENTIFIER, value := TokValue.str "truee".toList,
         line := 1, column := 6 },
       { type := TokenType.EOF, value := TokValue.none, line := 1, column := 6 }] :=
  ⟨read_identifier_eq, by decide, by decide, by decide, by decide, by decide, by decide⟩

/-- C8 (counterexample): the claim says the number reader consumes a
maximal run of decimal digits and emits one Integer/Float token.  The run
it consumes is Python's `str.isdigit` class, a strict superset of the
decimal digits: on input `"3²"` it munches past the maximal decimal run
`"3"` to the full digit-class run `"3²"` (`'²'.isdigit()` is true though
`'²'` is not a decimal digit — last two conjuncts), hands `"3²"` to
`int()`, which raises `ValueError` at lexer.py line 223, and tokenization
aborts with no token emitted (first two conjuncts). -/
theorem py_number_reader_counterexample :
    py_tokenize ['3', '²'] = Except.error ['3', '²'] ∧
    py_read_number (initLexer ['3', '²']) = Except.error ['3', '²'] ∧
    (['3', '²'] : List Char) ≠ ['3'] ∧
    '²'.isDigit = false ∧ py_isdigit '²' = true :=
  ⟨by decide, by decide, by decide, by decide, by decide⟩

/-- C8 (amended): the number reader consumes a maximal run `d1` of
digit-class characters (Python `str.isdigit`, a superset of the decimal
digits); if the next character is `'.'` it also consumes the dot and a
further maximal digit-class run `d2`.  When the consumed run consists of
decimal digits the reader emits exactly one token — Integer with the
decimal value of `d1` (first conjunct), or Float with the exact rational
value of the substring `d1.d2` (second conjunct; the fifth states that
value explicitly as `d1 + d2/10^|d2|`; host IEEE-754 rounding is not
modelled) — and otherwise the `int()`/`float()` parse raises `ValueError`
and no token is emitted (third and fourth conjuncts).  Concretely `"3."`
yields Float 3.0, `"3.14"` Float 157/50, and `"42"` Integer 42 (last three
conjuncts). -/
theorem py_number_reader_amended :
    (∀ (s : Lexer) (d1 : List Char), d1 = (s.source.drop s.position).takeWhile py_isdigit →
      ¬(s.position + d1.length < s.source.length ∧
          char_at s (s.position + d1.length) = '.') →
      (d1 ≠ [] ∧ d1.all Char.isDigit) →
      py_read_number s = Except.ok
        { s with
          position := s.position + d1.length,
          column := s.column + d1.length,
          tokens := s.tokens ++
            [{ type := TokenType.INTEGER, value := TokValue.int (parseInt d1),
               line := s.line, column := s.column + d1.length }] }) ∧
    (∀ (s : Lexer) (d1 d2 : List Char),
      d1 = (s.source.drop s.position).takeWhile py_isdigit →
      s.position + d1.length < s.source.length →
      char_at s (s.position + d1.length) = '.' →
      d2 = (s.source.drop (s.position + d1.length + 1)).takeWhile py_isdigit →
      (d1 ≠ [] ∧ d1.all Char.isDigit ∧ d2.all Char.isDigit) →
      py_read_number s = Except.ok
        { s with
          position := s.position + d1.length + 1 + d2.length,
          column := s.column + d1.length + 1 + d2.length,
          tokens := s.tokens ++
            [{ type := TokenType.FLOAT,
               value := TokValue.float (parseFloat (d1 ++ '.' :: d2)),
               line := s.line, column := s.column + d1.length + 1 + d2.length }] }) ∧
    (∀ (s : Lexer) (d1 : List Char), d1 = (s.source.drop s.position).takeWhile py_isdigit →
      ¬(s.position + d1.length < s.source.length ∧
          char_at s (s.position + d1.length) = '.') →
      ¬(d1 ≠ [] ∧ d1.all Char.isDigit) →
      py_read_number s = Except.error d1) ∧
    (∀ (s : Lexer) (d1 d2 : List Char),
      d1 = (s.source.drop s.position).takeWhile py_isdigit →
      s.position + d1.length < s.source.length →
      char_at s (s.position + d1.length) = '.' →
      d2 = (s.source.drop (s.position + d1.length + 1)).takeWhile py_isdigit →
      ¬(d1 ≠ [] ∧ d1.all Char.isDigit ∧ d2.all Char.isDigit) →
      py_read_number s = Except.error (d1 ++ '.' :: d2)) ∧
    (∀ d1 d2 : List Char, (∀ c ∈ d1, c.isDigit = true) →
      parseFloat (d1 ++ '.' :: d2) =
        (parseInt d1 : Rat) + (parseInt d2 : Rat) / (10 : Rat) ^ d2.length) ∧
    py_tokenize "3.".toList = Except.ok
      [{ type := TokenType.FLOAT, value := TokValue.float 3, line := 1, column := 3 },
       { type := TokenType.EOF, value := TokValue.none, line := 1, column := 3 }] ∧
    py_tokenize "3.14".toList = Except.ok
      [{ type := TokenType.FLOAT, value := TokValue.float (mkRat 157 50),
         line := 1, column := 5 },
       { type := TokenType.EOF, value := TokValue.none, line := 1, column := 5 }] ∧
    py_tokenize "42".toList = Except.ok
      [{ type := TokenType.INTEGER, value := TokValue.int 42, line := 1, column := 3 },
       { type := TokenType.EOF, value := TokValue.none, line := 1, column := 3 }] := by
  refine ⟨py_read_number_eq_int_ok, py_read_number_eq_float_ok, py_read_number_eq_int_err,
    py_read_number_eq_float_err, ?_, by decide, by decide, by decide⟩
  intro d1 d2 h
  exact parseFloat_value d1 d2 (fun c hc => isDigit_ne_dot (h c hc))

/-- Witness for the amended C8 theorem: the integer conjunct applied at the
concrete state for input `"42"`. -/
theorem py_number_reader_amended_witness :
    py_read_number (initLexer ['4', '2']) = Except.ok
      { source := ['4', '2'], position := 2, line := 1, column := 3,
        tokens := [{ type := TokenType.INTEGER, value := TokValue.int 42,
                     line := 1, column := 3 }],
        indent_stack := [0], warnings := [] } :=
  (py_number_reader_amended.1 (initLexer ['4', '2']) ['4', '2']
      (by decide) (by decide) (by decide)).trans (by decide)

/-- C9: for every string literal opened by a quote character, the emitted
String token's value is exactly the escape-decoded text accumulated up to
(not including) the first unescaped occurrence of the same quote character,
or up to end of input if no closing quote occurs, with no error in the
unterminated case — stated by refinement: `read_string` always emits
exactly one String token whose value is `string_value_spec`, the recursive
decoding function written from the claim (first conjunct, which also shows
totality: some token is emitted for every input).  During decoding,
backslash-n becomes a newline, backslash-t a tab, double backslash a single
backslash, and any other escaped character stands for itself (next four
conjuncts).  Concretely, `'a\nb'` yields a String token whose value holds a
literal newline between `a` and `b`, and the unterminated `"ab` yields a
String token with value `ab` and a complete EOF-terminated sequence. -/
theorem string_reader_refinement :
    (∀ (s : Lexer) (q : Char), ∃ k, 1 ≤ k ∧ read_string s q =
      { s with
        position := s.position + k,
        column := s.column + k,
        tokens := s.tokens ++
          [{ type := TokenType.STRING,
             value := TokValue.str
               (string_value_spec q (s.source.drop (s.position + 1))),
             line := s.line, column := s.column + k }] }) ∧
    escape_char_value 'n' = '\n' ∧
    escape_char_value 't' = '\t' ∧
    escape_char_value '\\' = '\\' ∧
    (∀ c : Char, c ∉ ['n', 't', '\\'] → escape_char_value c = c) ∧
    tokenize ['\x27', 'a', '\\', 'n', 'b', '\x27'] =
      [{ type := TokenType.STRING, value := TokValue.str ['a', '\n', 'b'],
         line := 1, column := 7 },
       { type := TokenType.EOF, value := TokValue.none, line := 1, column := 7 }] ∧
    tokenize ['"', 'a', 'b'] =
      [{ type := TokenType.STRING, value := TokValue.str ['a', 'b'], line := 1, column := 4 },
       { type := TokenType.EOF, value := TokValue.none, line := 1, column := 4 }] := by
  refine ⟨read_string_eq, by decide, by decide, by decide, ?_, by decide, by decide⟩
  intro c h
  have h1 : ¬c = 'n' := fun he => h (by rw [he]; decide)
  have h2 : ¬c = 't' := fun he => h (by rw [he]; decide)
  have h3 : ¬c = '\\' := fun he => h (by rw [he]; decide)
  simp only [escape_char_value]
  rw [if_neg h1, if_neg h2, if_neg h3]

/-- Witness for C9: the unknown-escape conjunct applied at the concrete
character `x` (an escaped `x` stands for itself). -/
theorem string_reader_refinement_witness :
    escape_char_value 'x' = 'x' :=
  string_reader_refinement.2.2.2.2.1 'x' (by decide)
